import Mathlib

/-!
# nomenclator: the photo-album title processor

A shallow embedding of `internal/processor/processor.go`: the batch driver
`Process`, the row parser `mapDataRowToStruct` and the three classifiers
`weatherConditions`, `albumPeriod` and `albumCity`, with the parts of the Go
standard library they call (`time.Parse` for the fixed layout, `time.Time`
comparison, subtraction and weekday, `strings.ToLower`, `regexp` matching of
alternations of literals).

Conventions of the embedding.

* A Go `string` is a Lean `String`; character-level work is done on `String.data`.
* A Go `error` is a `GoError`; a function returning `(T, error)` returns
  `Except GoError T`.
* A run-time panic (index out of range) is an explicit outcome: `Outcome.panic`
  for one row, `none` for the whole batch.
* A `time.Time` in UTC is an `Int`: the number of nanoseconds since
  1970-01-01T00:00:00Z. A `time.Duration` is an `Int` too: a count of nanoseconds
  (an `int64` in Go, whence the saturation in `Time.Sub`).
* A Go `float64` coordinate is a value of an arbitrary type `F`: the processor
  never computes with coordinates, it only hands them to the two resolvers.
  `strconv.ParseFloat` is therefore a parameter `parseFloat`.
* The two resolvers (interfaces `Locator` and `Weatherman`) are functions.
* A Go `map[string]int` is the function from keys to values (0 for a key that
  is not in the map) in `albumCity` and `weatherConditions`; `ProcessRun` and the
  definitions around it hold the maps as lists of entries in an order that
  depends on the run, and the two models are proved to return the same.
* `strings.ToLower` lower-cases rune by rune; the runes that Go lower-cases to
  an ASCII letter (the ASCII capitals, U+0130 and U+212A) are lower-cased as Go
  does, which is all that patterns of ASCII letters can see.
-/

namespace Nomenclator

/-! ## Go values used by the processor -/

/-- A Go `error` value, by the way it was built. -/
inductive GoError where
  /-- An error with a plain message: `errors.New(msg)`, or any error of a resolver. -/
  | errorString (msg : String)
  /-- A `*time.ParseError`: the value does not parse with the layout. -/
  | parseError (layout value : String)
  /-- A `*strconv.NumError` of the function `fn` for the text `num`. -/
  | numError (fn num msg : String)
  /-- The error `fmt.Errorf(msg + "%w", err)`: it wraps `err`, and its message is `msg`
  followed by `err.Error()`. -/
  | wrapError (msg : String) (err : GoError)
  deriving DecidableEq, Repr

/-- The constant `time.Second`. -/
def Second : Int := 1000000000

/-- The constant `time.Hour`. -/
def Hour : Int := 3600 * Second

/-- The largest `time.Duration`, `1<<63 - 1`. -/
def maxDuration : Int := 9223372036854775807

/-- The smallest `time.Duration`, `-1 << 63`. -/
def minDuration : Int := -9223372036854775808

/-- The method `Time.Sub`: the difference `t - u`, saturated to the range of `Duration`. -/
def Time.Sub (t u : Int) : Int :=
  if t - u > maxDuration then maxDuration
  else if t - u < minDuration then minDuration
  else t - u

/-- The method `Time.Before`. -/
def Time.Before (t u : Int) : Bool := decide (t < u)

/-- The method `Time.After`. -/
def Time.After (t u : Int) : Bool := decide (t > u)

/-- The method `Time.Weekday` for a UTC instant, as a number with Sunday = 0:
1970-01-01 was a Thursday (4). -/
def Time.Weekday (t : Int) : Nat := ((t / (86400 * Second) + 4) % 7).toNat

/-- The method `Weekday.String`. -/
def weekdayString (d : Nat) : String :=
  match d with
  | 0 => "Sunday"
  | 1 => "Monday"
  | 2 => "Tuesday"
  | 3 => "Wednesday"
  | 4 => "Thursday"
  | 5 => "Friday"
  | 6 => "Saturday"
  | _ => "%!Weekday(" ++ toString d ++ ")"

/-! ## Strings and regular expressions -/

/-- Whether `pat` occurs in `s` as a contiguous block. -/
def hasInfix (pat : List Char) : List Char → Bool
  | [] => pat.isEmpty
  | c :: cs => pat.isPrefixOf (c :: cs) || hasInfix pat cs

/-- The call `regexp.MustCompile(a1|a2|...).MatchString(s)` for a pattern that is
an alternation of literal words: some alternative occurs in `s`. -/
def MatchString (alternatives : List String) (s : String) : Bool :=
  alternatives.any fun a => hasInfix a.data s.data

/-- The function `unicode.ToLower` as far as the result is an ASCII character.
Go lower-cases to an ASCII letter the ASCII capitals and two more runes: U+0130
(capital I with a dot above) gives `i` and U+212A (the Kelvin sign) gives `k`.
Every other rune is kept: where Go gives another rune, both are outside ASCII,
and the patterns of the processor, made of ASCII letters, match the same texts
(`MatchString_lower_exact`). -/
def unicodeToLower (c : Char) : Char :=
  if c = Char.ofNat 0x130 then 'i'
  else if c = Char.ofNat 0x212A then 'k'
  else c.toLower

/-- The function `strings.ToLower`: the text lower-cased rune by rune. -/
def ToLower (s : String) : String := String.mk (s.data.map unicodeToLower)

/-! ## `time.Parse` with the layout `2006-01-02T15:04:05Z` -/

/-- The layout constant passed to `time.Parse` by `mapDataRowToStruct`. -/
def layout : String := "2006-01-02T15:04:05Z"

/-- Go `isDigit(s, i)` at `i = 0`, with the digit value. -/
def digit? (c : Char) : Option Nat :=
  if c.isDigit then some (c.toNat - 48) else none

/-- Go `getnum(s, fixed)`: one or two leading digits (exactly two when `fixed`). -/
def getnum (fixed : Bool) : List Char → Option (Nat × List Char)
  | [] => none
  | c :: rest =>
    match digit? c with
    | none => none
    | some a =>
      match rest with
      | [] => if fixed then none else some (a, [])
      | d :: rest2 =>
        match digit? d with
        | none => if fixed then none else some (a, d :: rest2)
        | some b => some (a * 10 + b, rest2)

/-- The year field `2006`: exactly four digits. -/
def getyear : List Char → Option (Nat × List Char)
  | a :: b :: c :: d :: rest =>
    match digit? a, digit? b, digit? c, digit? d with
    | some a, some b, some c, some d => some (((a * 10 + b) * 10 + c) * 10 + d, rest)
    | _, _, _, _ => none
  | _ => none

/-- Go `skip(value, lit)` for a one-character literal other than a blank. -/
def skipChar (lit : Char) : List Char → Option (List Char)
  | [] => none
  | c :: rest => if c = lit then some rest else none

/-- The digits at the head of a list, and the rest. -/
def spanDigits : List Char → List Nat × List Char
  | [] => ([], [])
  | c :: rest =>
    match digit? c with
    | none => ([], c :: rest)
    | some a => ((spanDigits rest).1.cons a, (spanDigits rest).2)

/-- Go `parseNanoseconds` on the digits after the separator: the first nine
digits, scaled to nanoseconds. -/
def nanosOfDigits (ds : List Nat) : Nat :=
  ((ds.take 9) ++ List.replicate (9 - (ds.take 9).length) 0).foldl (fun acc a => acc * 10 + a) 0

/-- A fractional second in the value where the layout has none: `time.Parse`
reads it when a period or comma followed by a digit comes after the seconds. -/
def getfrac : List Char → Nat × List Char
  | sep :: d :: rest =>
    if (sep = '.' || sep = ',') && d.isDigit then
      (nanosOfDigits (spanDigits (d :: rest)).1, (spanDigits (d :: rest)).2)
    else (0, sep :: d :: rest)
  | value => (0, value)

/-- Whether `year` is a leap year (Go `isLeap`). -/
def isLeap (year : Nat) : Bool := year % 4 == 0 && (year % 100 != 0 || year % 400 == 0)

/-- Go `daysIn(month, year)`. -/
def daysIn (month year : Nat) : Nat :=
  match month with
  | 2 => if isLeap year then 29 else 28
  | 4 => 30
  | 6 => 30
  | 9 => 30
  | 11 => 30
  | _ => 31

/-- Days from 1970-01-01 to the given day of the proleptic Gregorian calendar. -/
def daysSinceEpoch (year month day : Nat) : Int :=
  let y : Int := if month ≤ 2 then (year : Int) - 1 else year
  let era : Int := y / 400
  let yoe : Int := y - era * 400
  let mp : Int := if month ≤ 2 then (month : Int) + 9 else (month : Int) - 3
  let doy : Int := (153 * mp + 2) / 5 + (day : Int) - 1
  let doe : Int := yoe * 365 + yoe / 4 - yoe / 100 + doy
  era * 146097 + doe - 719468

/-- Go `time.Date(year, month, day, hour, min, sec, nsec, time.UTC)` for fields in range. -/
def Date (year month day hour min sec nsec : Nat) : Int :=
  ((daysSinceEpoch year month day * 86400 + hour * 3600 + min * 60 + sec) * 1000000000 + nsec : Int)

/-- The call `time.Parse("2006-01-02T15:04:05Z", value)`: a four-digit year, `-`, a
two-digit month, `-`, a two-digit day, `T`, a one- or two-digit hour, `:`, a
two-digit minute, `:`, a two-digit second, an optional fractional second, the
letter `Z`, and nothing more; month, day, hour, minute and second in range. The
result is in UTC. -/
def timeParse (value : String) : Except GoError Int :=
  let parsed : Option Int := do
    let (year, v) ← getyear value.data
    let v ← skipChar '-' v
    let (month, v) ← getnum true v
    let v ← skipChar '-' v
    let (day, v) ← getnum true v
    let v ← skipChar 'T' v
    let (hour, v) ← getnum false v
    let v ← skipChar ':' v
    let (min, v) ← getnum true v
    let v ← skipChar ':' v
    let (sec, v) ← getnum true v
    let (nsec, v) := getfrac v
    let v ← skipChar 'Z' v
    if v.isEmpty && 1 ≤ month && month ≤ 12 && hour < 24 && min < 60 && sec < 60
        && 1 ≤ day && day ≤ daysIn month year then
      some (Date year month day hour min sec nsec)
    else none
  match parsed with
  | some t => .ok t
  | none => .error (.parseError layout value)

/-! ## The data model of the processor -/

/-- The struct `locator.Location`: what the place resolver returns, with the
two fields `Date` and `Weather` that `Process` fills in. -/
structure Location where
  City : String
  Country : String
  Date : Int
  Weather : String
  deriving DecidableEq, Repr

/-- The struct `weatherman.Forecast`. -/
structure Forecast where
  Conditions : String
  deriving DecidableEq, Repr

/-- The struct `Metadata`: one parsed row. -/
structure Metadata (F : Type) where
  latitude : F
  longitude : F
  date : Int

/-- The interface `Locator`: `Locate(latitude, longitude)`. -/
abbrev Locator (F : Type) := F → F → Except GoError Location

/-- The interface `Weatherman`: `CheckWeather(latitude, longitude, date)`. -/
abbrev Weatherman (F : Type) := F → F → Int → Except GoError Forecast

/-- What a call of a function that indexes a slice can do: return a value,
return an error, or panic with an index out of range. -/
inductive Outcome (α : Type) where
  | ok (v : α)
  | error (err : GoError)
  | panic

/-! ## `mapDataRowToStruct` -/

/-- The function `mapDataRowToStruct`. The row is a Go slice: `metadata[i]` panics
when `i` is not below its length. -/
def mapDataRowToStruct {F : Type} (parseFloat : String → Except GoError F)
    (metadata : List String) : Outcome (Metadata F) :=
  if metadata.length < 1 then .error (.errorString "empty row")
  else
    match metadata[0]? with
    | none => .panic
    | some field0 =>
      match timeParse field0 with
      | .error err => .error (.wrapError "invalid date: " err)
      | .ok date =>
        match metadata[1]? with
        | none => .panic
        | some field1 =>
          match parseFloat field1 with
          | .error err => .error err
          | .ok latitude =>
            match metadata[2]? with
            | none => .panic
            | some field2 =>
              match parseFloat field2 with
              | .error err => .error err
              | .ok longitude => .ok { latitude := latitude, longitude := longitude, date := date }

/-! ## The classifiers -/

/-- The statement `m[key]++` on a Go `map[string]int`, the map being the
function from keys to their values (0 for a key that is not in the map). -/
def incr (m : String → Nat) (key : String) : String → Nat :=
  fun k => if k = key then m k + 1 else m k

/-- The local variables of `albumCity`. -/
structure CityState where
  m : String → Nat
  count : Nat
  city : String

/-- The body of the loop of `albumCity`. -/
def albumCityStep (st : CityState) (photo : Location) : CityState :=
  let m := incr st.m photo.City
  if m photo.City > st.count then { m := m, count := m photo.City, city := photo.City }
  else { m := m, count := st.count, city := st.city }

/-- The state of `albumCity` after its loop. -/
def albumCityLoop (album : List Location) : CityState :=
  album.foldl albumCityStep { m := fun _ => 0, count := 0, city := "" }

/-- The function `albumCity`. -/
def albumCity (album : List Location) : String := (albumCityLoop album).city

/-- The pattern of `weekendRegExp`. -/
def weekendRegExp : List String := ["Saturday", "Sunday", "Friday"]

/-- The body of the loop of `albumPeriod`, on the pair `(minDate, maxDate)`. -/
def albumPeriodStep (st : Int × Int) (photo : Location) : Int × Int :=
  let minDate := if Time.Before photo.Date st.1 then photo.Date else st.1
  let maxDate := if Time.After photo.Date st.2 then photo.Date else st.2
  (minDate, maxDate)

/-- The test `days > k` of `albumPeriod`, for `days := d.Hours() / 24` and `k` one
of 1 and 3. Go computes `d.Hours()` as `float64(d / Hour) + float64(d % Hour) / 3.6e12`
and the quotient by 24 in `float64`; next to 24 and 72 hours a nanosecond is
more than fifteen units in the last place, and rounding is monotone, so both
tests agree with the exact comparison of the nanosecond counts. -/
def daysExceed (d : Int) (k : Int) : Bool := decide (d > k * (24 * Hour))

/-- The lines of `albumPeriod` after its loop: the period for the two extreme dates. -/
def periodOf (minDate maxDate : Int) : String :=
  if daysExceed (Time.Sub maxDate minDate) 3 then "week"
  else if daysExceed (Time.Sub maxDate minDate) 1 then
    if MatchString weekendRegExp (weekdayString (Time.Weekday maxDate))
        || MatchString weekendRegExp (weekdayString (Time.Weekday minDate)) then "weekend"
    else "few days"
  else "day"

/-- The function `albumPeriod`. -/
def albumPeriod (album : List Location) : String :=
  match album with
  | [] => ""
  | first :: _ =>
    periodOf (album.foldl albumPeriodStep (first.Date, first.Date)).1
      (album.foldl albumPeriodStep (first.Date, first.Date)).2

/-- The pattern of `rainyRegExp`. -/
def rainyRegExp : List String := ["rain", "drizzle", "shower"]

/-- The pattern of `snowyRegExp`. -/
def snowyRegExp : List String := ["snow"]

/-- The pattern of `stormyRegExp`. -/
def stormyRegExp : List String := ["storm", "thunder", "tornado"]

/-- The pattern of `icyRegExp`. -/
def icyRegExp : List String := ["ice", "icy"]

/-- The pattern of `foggyRegExp`. -/
def foggyRegExp : List String := ["mist", "overcast", "fog"]

/-- The local variables of `weatherConditions`. -/
structure MoodState where
  m : String → Nat
  count : Nat
  weather : String

/-- One case body of the `switch` of `weatherConditions`: `m[key]++`, then, when
`m[key] > count`, `count = m[source]` and `weather = key`. Every case has
`source = key`, except the case of `icyRegExp`, which counts under `"chilly"` and
reads `m["icy"]`. -/
def tally (st : MoodState) (key source : String) : MoodState :=
  let m := incr st.m key
  if m key > st.count then { m := m, count := m source, weather := key }
  else { m := m, count := st.count, weather := st.weather }

/-- The body of the loop of `weatherConditions`. -/
def weatherStep (st : MoodState) (photo : Location) : MoodState :=
  if MatchString rainyRegExp (ToLower photo.Weather) then tally st "rainy" "rainy"
  else if MatchString snowyRegExp (ToLower photo.Weather) then tally st "snowy" "snowy"
  else if MatchString stormyRegExp (ToLower photo.Weather) then tally st "stormy" "stormy"
  else if MatchString icyRegExp (ToLower photo.Weather) then tally st "chilly" "icy"
  else if MatchString foggyRegExp (ToLower photo.Weather) then tally st "foggy" "foggy"
  else tally st "sunny" "sunny"

/-- The state of `weatherConditions` after its loop. -/
def weatherLoop (album : List Location) : MoodState :=
  album.foldl weatherStep { m := fun _ => 0, count := 0, weather := "" }

/-- The function `weatherConditions`. -/
def weatherConditions (album : List Location) : String := (weatherLoop album).weather

/-! ## `Process` -/

/-- The two slices `Process` appends to. -/
structure Batch where
  errs : List GoError
  albumMetadata : List Location

/-- The body of the loop of `Process` for one row; `none` when
`mapDataRowToStruct` panics. -/
def processRow {F : Type} (parseFloat : String → Except GoError F) (locator : Locator F)
    (weatherman : Weatherman F) (acc : Batch) (row : List String) : Option Batch :=
  match mapDataRowToStruct parseFloat row with
  | .panic => none
  | .error err =>
    some { acc with errs := acc.errs ++ [.wrapError "invalid photo: " err] }
  | .ok metadata =>
    match locator metadata.latitude metadata.longitude with
    | .error err =>
      some { acc with errs := acc.errs ++ [.wrapError "invalid photo: " err] }
    | .ok photoMetadata =>
      match weatherman metadata.latitude metadata.longitude metadata.date with
      | .error err =>
        some { acc with errs := acc.errs ++ [.wrapError "invalid photo: " err] }
      | .ok weatherCondition =>
        some { acc with albumMetadata := acc.albumMetadata ++
          [{ photoMetadata with Date := metadata.date, Weather := weatherCondition.Conditions }] }

/-- The method `Processor.Process`: the title and the errors, or `none` when the
call panics. -/
def Process {F : Type} (parseFloat : String → Except GoError F) (locator : Locator F)
    (weatherman : Weatherman F) (data : List (List String)) : Option (String × List GoError) :=
  match data.foldlM (processRow parseFloat locator weatherman) { errs := [], albumMetadata := [] } with
  | none => none
  | some acc =>
    if acc.albumMetadata.length = 0 then some ("", acc.errs)
    else
      some ("A " ++ weatherConditions acc.albumMetadata ++ " " ++ albumPeriod acc.albumMetadata
        ++ " in " ++ albumCity acc.albumMetadata, acc.errs)

/-! ## What one row contributes -/

/-- The Record Enricher: lines 51 to 69 of `Process`, the part of the loop body
that depends on the row only. It gives the record appended to `albumMetadata`,
or the entry appended to `errs`, or panics. -/
def enrich {F : Type} (parseFloat : String → Except GoError F) (locator : Locator F)
    (weatherman : Weatherman F) (row : List String) : Outcome Location :=
  match mapDataRowToStruct parseFloat row with
  | .panic => .panic
  | .error err => .error (.wrapError "invalid photo: " err)
  | .ok metadata =>
    match locator metadata.latitude metadata.longitude with
    | .error err => .error (.wrapError "invalid photo: " err)
    | .ok photoMetadata =>
      match weatherman metadata.latitude metadata.longitude metadata.date with
      | .error err => .error (.wrapError "invalid photo: " err)
      | .ok weatherCondition =>
        .ok { photoMetadata with Date := metadata.date, Weather := weatherCondition.Conditions }

/-- The record of a row that is enriched successfully. -/
def Outcome.record? : Outcome Location → Option Location
  | .ok v => some v
  | _ => none

/-- The error entry of a row that fails. -/
def Outcome.failure? : Outcome Location → Option GoError
  | .error err => some err
  | _ => none

/-- Whether the outcome is a panic. -/
def Outcome.panics {α : Type} : Outcome α → Bool
  | .panic => true
  | _ => false

/-- The successfully enriched records of a batch, in input order. -/
def enrichedRecords {F : Type} (parseFloat : String → Except GoError F) (locator : Locator F)
    (weatherman : Weatherman F) (data : List (List String)) : List Location :=
  data.filterMap fun row => (enrich parseFloat locator weatherman row).record?

/-- The error entries of the failing rows of a batch, in input order. -/
def rowErrors {F : Type} (parseFloat : String → Except GoError F) (locator : Locator F)
    (weatherman : Weatherman F) (data : List (List String)) : List GoError :=
  data.filterMap fun row => (enrich parseFloat locator weatherman row).failure?

/-! ## The vocabulary of the claims on the classifiers -/

/-- The mood table of the specification: the bucket labels with their
keywords, in priority order. -/
def moodTable : List (String × List String) :=
  [("rainy", ["rain", "drizzle", "shower"]),
   ("snowy", ["snow"]),
   ("stormy", ["storm", "thunder", "tornado"]),
   ("chilly", ["ice", "icy"]),
   ("foggy", ["mist", "overcast", "fog"])]

/-- The bucket of a condition text as the specification words it: the first
entry of the table one of whose keywords occurs in the lower-cased text, and
"sunny" when there is none. -/
def moodBucket (conditionText : String) : String :=
  match moodTable.find? (fun entry =>
      entry.2.any fun keyword => hasInfix keyword.data (ToLower conditionText).data) with
  | some entry => entry.1
  | none => "sunny"

/-- The tally of a bucket: the number of records of the album that fall in it. -/
def bucketTally (bucket : String) (album : List Location) : Nat :=
  (album.map fun photo => moodBucket photo.Weather).count bucket

/-- The number of records of the album with the given primary name. -/
def cityCount (name : String) (album : List Location) : Nat :=
  (album.map Location.City).count name

/-- The invariant of the loop of `albumCity` after the records `xs`: the map
holds the running counts, `count` bounds them all, and unless `count` is 0 it
is the running count that the leader had at some earlier point of the
sequence, at which every other name was still below it. -/
structure CityInv (xs : List Location) (st : CityState) : Prop where
  tallies : ∀ name, st.m name = cityCount name xs
  bound : ∀ name, cityCount name xs ≤ st.count
  lead : st.count = 0 ∨ ∃ pre post, xs = pre ++ post ∧ cityCount st.city pre = st.count
    ∧ ∀ name, name ≠ st.city → cityCount name pre < st.count

/-- That `t` is the earliest timestamp of the album. -/
def IsEarliest (t : Int) (album : List Location) : Prop :=
  (∃ photo ∈ album, photo.Date = t) ∧ ∀ photo ∈ album, t ≤ photo.Date

/-- That `t` is the latest timestamp of the album. -/
def IsLatest (t : Int) (album : List Location) : Prop :=
  (∃ photo ∈ album, photo.Date = t) ∧ ∀ photo ∈ album, photo.Date ≤ t

/-- That a weekday (Sunday = 0) is a Friday, a Saturday or a Sunday. -/
def isWeekendDay (d : Nat) : Bool := d == 5 || d == 6 || d == 0

/-- A record of the examples with the given condition text. -/
def withWeather (conditionText : String) : Location :=
  { City := "New York", Country := "USA", Date := 0, Weather := conditionText }

/-- A record of the examples with the given primary name. -/
def inCity (name : String) : Location :=
  { City := name, Country := "USA", Date := 0, Weather := "" }

/-- A record of the examples taken at the given instant. -/
def takenAt (date : Int) : Location :=
  { City := "New York", Country := "USA", Date := date, Weather := "" }

/-! ## Test doubles for the examples -/

/-- A stand-in for `strconv.ParseFloat` in the examples: it accepts an optional
sign followed by digits with at most one period, and keeps the coordinate as
its literal. -/
def decimalLiteral (s : String) : Except GoError String :=
  let body := match s.data with
    | '-' :: rest => rest
    | '+' :: rest => rest
    | cs => cs
  if body.any Char.isDigit && body.all (fun c => c.isDigit || c = '.')
      && (body.filter (fun c => c = '.')).length ≤ 1 then .ok s
  else .error (.numError "ParseFloat" s "invalid syntax")

/-- The place resolver of the tests: every coordinate is in New York. -/
def newYorkLocator : Locator String :=
  fun _ _ => .ok { City := "New York", Country := "USA", Date := 0, Weather := "" }

/-- The weather resolver of the test `foggy weekend`. -/
def foggyWeekendWeatherman : Weatherman String :=
  fun _ _ date =>
    if date = Date 2020 3 30 14 12 19 0 then .ok { Conditions := "Rain" }
    else if date = Date 2020 3 29 14 20 10 0 then .ok { Conditions := "Overcast" }
    else if date = Date 2020 3 28 14 32 2 0 then .ok { Conditions := "Fog" }
    else .error (.errorString "argh")

/-- The input of the test `foggy weekend`. -/
def foggyWeekendRows : List (List String) :=
  [["2020-03-30T14:12:19Z", "40.728808", "-73.996106"],
   ["2020-03-29T14:20:10Z", "40.728656", "-73.998790"],
   ["2020-03-28T14:32:02Z", "40.727160", "-73.996044"]]

/-- A resolver that always fails with the error of the test `locator/weatherman fails`. -/
def failingLocator : Locator String := fun _ _ => .error (.errorString "argh")

/-! ## Further vocabulary -/

/-- The key whose value the case of a bucket copies into `count`: the bucket's
own key, except for "chilly", whose case reads `m["icy"]`. -/
def moodSource (bucket : String) : String := if bucket = "chilly" then "icy" else bucket

/-- The six bucket labels. -/
def moodLabels : List String := ["rainy", "snowy", "stormy", "chilly", "foggy", "sunny"]

/-- Whether a row fails: it contributes an entry to the error list. -/
def failsRow {F : Type} (parseFloat : String → Except GoError F) (locator : Locator F)
    (weatherman : Weatherman F) (row : List String) : Bool :=
  (enrich parseFloat locator weatherman row).failure?.isSome

/-- The input with all failing rows removed. -/
def succeedingRows {F : Type} (parseFloat : String → Except GoError F) (locator : Locator F)
    (weatherman : Weatherman F) (data : List (List String)) : List (List String) :=
  data.filter fun row => !failsRow parseFloat locator weatherman row

/-- The weather resolver of the test `invalid data`: rain everywhere. -/
def rainyWeatherman : Weatherman String := fun _ _ _ => .ok { Conditions := "Rain" }

/-- The input of the test `invalid data`: the first timestamp has a blank for the `T`. -/
def invalidDataRows : List (List String) :=
  [["2020-03-30 14:12:19Z", "40.728808", "-73.996106"],
   ["2020-03-29T14:20:10Z", "40.728656", "-73.998790"]]

/-- The strict form `YYYY-MM-DDTHH:MM:SSZ`: twenty characters, a digit at each
place of a letter of the form. -/
def isStrictTimestamp (s : String) : Bool :=
  match s.data with
  | [y1, y2, y3, y4, '-', m1, m2, '-', d1, d2, 'T', h1, h2, ':', n1, n2, ':', s1, s2, 'Z'] =>
    [y1, y2, y3, y4, m1, m2, d1, d2, h1, h2, n1, n2, s1, s2].all Char.isDigit
  | _ => false

/-- What may follow the seconds of a timestamp that `time.Parse` reads: the
letter `Z`, or a fractional second (a period or a comma, then one or more
digits) and the letter `Z`. -/
def isZoneTail : List Char → Bool
  | ['Z'] => true
  | sep :: d :: rest =>
    (sep = '.' || sep = ',') && d.isDigit && rest.dropWhile Char.isDigit == ['Z']
  | _ => false

/-- The part `:MM:SS` of a timestamp, with what follows the seconds. -/
def isMinutesSeconds : List Char → Bool
  | ':' :: n1 :: n2 :: ':' :: s1 :: s2 :: rest =>
    n1.isDigit && n2.isDigit && s1.isDigit && s2.isDigit && isZoneTail rest
  | _ => false

/-- The part of a timestamp from the hour on: one or two digits, then `:MM:SS`
and what follows. -/
def isClock : List Char → Bool
  | h1 :: ':' :: rest => h1.isDigit && isMinutesSeconds (':' :: rest)
  | h1 :: h2 :: rest => h1.isDigit && h2.isDigit && isMinutesSeconds rest
  | _ => false

/-- The shape of the timestamps that `time.Parse` can read with the layout: the
strict form, where the hour may have one digit and a fractional second may
follow the seconds. -/
def isTimestampShape (s : String) : Bool :=
  match s.data with
  | y1 :: y2 :: y3 :: y4 :: '-' :: m1 :: m2 :: '-' :: d1 :: d2 :: 'T' :: rest =>
    [y1, y2, y3, y4, m1, m2, d1, d2].all Char.isDigit && isClock rest
  | _ => false

/-- A row that is empty, or whose latitude field or longitude field the float
parser rejects. -/
def RejectedCoordinates {F : Type} (parseFloat : String → Except GoError F)
    (row : List String) : Prop :=
  row = []
  ∨ (∃ lat err, row[1]? = some lat ∧ parseFloat lat = .error err)
  ∨ (∃ lon err, row[2]? = some lon ∧ parseFloat lon = .error err)

/-- A stand-in for `strconv.ParseFloat` in the examples that reads, as
`strconv.ParseFloat` does, the special values besides the decimal literals:
"NaN", and "Inf" or "Infinity" with an optional sign, in any letter case. The
coordinate is kept as its text. -/
def decimalOrSpecial (s : String) : Except GoError String :=
  if ["nan", "inf", "+inf", "-inf", "infinity", "+infinity", "-infinity"].contains
      (String.mk (s.data.map Char.toLower))
  then .ok s
  else decimalLiteral s

/-- The input of the test `coordinates fail`. -/
def coordinatesFailRows : List (List String) :=
  [["2020-03-30T14:12:19Z", "what", "-73.998790"],
   ["2020-03-29T14:20:10Z", "40.728656", "what"]]

/-- The function `errors.Unwrap`: the error that an error wraps. -/
def GoError.Unwrap : GoError → Option GoError
  | .wrapError _ err => some err
  | _ => none

/-- The error that makes a row fail, as the row parser or the resolver returns
it, before `Process` wraps it: the `err` of lines 51, 56 and 62. -/
def underlyingError {F : Type} (parseFloat : String → Except GoError F) (locator : Locator F)
    (weatherman : Weatherman F) (row : List String) : Option GoError :=
  match mapDataRowToStruct parseFloat row with
  | .panic => none
  | .error err => some err
  | .ok metadata =>
    match locator metadata.latitude metadata.longitude with
    | .error err => some err
    | .ok _ =>
      match weatherman metadata.latitude metadata.longitude metadata.date with
      | .error err => some err
      | .ok _ => none

/-- A weather resolver that always fails with the error of the test
`locator/weatherman fails`. -/
def failingWeatherman : Weatherman String := fun _ _ _ => .error (.errorString "argh")

/-- The input of the test `locator/weatherman fails`. -/
def resolverFailRows : List (List String) :=
  [["2020-03-30T14:12:19Z", "40.728808", "-73.996106"],
   ["2020-03-29T14:20:10Z", "40.728656", "-73.998790"]]

/-- The place resolver of the test `locator/weatherman fails`: it fails on the
first row and finds New York for the second. -/
def firstRowFailingLocator : Locator String :=
  fun latitude _ =>
    if latitude = "40.728808" then .error (.errorString "argh")
    else .ok { City := "New York", Country := "USA", Date := 0, Weather := "" }

/-- What `Process` keeps of the answer of the place resolver: the error, or the
city and the country. -/
def placeOf (answer : Except GoError Location) : Except GoError (String × String) :=
  match answer with
  | .error err => .error err
  | .ok location => .ok (location.City, location.Country)

/-- A place resolver that answers as `newYorkLocator` does, with other `Date`
and `Weather` fields in its answers. -/
def datedLocator : Locator String :=
  fun _ _ => .ok { City := "New York", Country := "USA", Date := 86400, Weather := "Snow" }

/-- Two characters that differ at most by the case of an ASCII letter. -/
def sameLetter (c d : Char) : Prop := d = c ∨ d = c.toLower ∨ d = c.toUpper

/-- Two texts of which one is the other with the case of some ASCII letters changed. -/
def CaseVariant (s t : String) : Prop := List.Forall₂ sameLetter s.data t.data

/-- Two albums whose records differ, one by one, at most by the letter case of
their condition texts. -/
def AlbumCaseVariant (album other : List Location) : Prop :=
  List.Forall₂ (fun photo changed => CaseVariant photo.Weather changed.Weather) album other

/-- A weather resolver that answers "Rain" for the date of the second row of the
test `invalid data` and fails for every other date. -/
def rainyOnceWeatherman : Weatherman String :=
  fun _ _ date =>
    if date = Date 2020 3 29 14 20 10 0 then .ok { Conditions := "Rain" }
    else .error (.errorString "argh")

/-- The reference mood classifier with consistent per-bucket counters, as the
specification words it: the records are scanned in order; the tally of a
bucket is the number of records scanned so far that fall in it; the leader
becomes the bucket of the current record when its tally strictly exceeds the
tally that the leader had when it took the lead. `seen` holds the records
already scanned, `lead` the leader's tally and label. -/
def referenceScan : List Location → List Location → Nat × String → Nat × String
  | _, [], lead => lead
  | seen, photo :: rest, lead =>
    referenceScan (seen ++ [photo]) rest
      (if bucketTally (moodBucket photo.Weather) (seen ++ [photo]) > lead.1 then
        (bucketTally (moodBucket photo.Weather) (seen ++ [photo]), moodBucket photo.Weather)
      else lead)

/-- The result of the reference mood classifier on an album. -/
def referenceMood (album : List Location) : String := (referenceScan [] album (0, "")).2

/-- The record with its mood bucket for primary name: the mood vote on an
album is the place vote on these records. -/
def asCity (photo : Location) : Location := { photo with City := moodBucket photo.Weather }

/-! ## A run of the processor, with the Go maps as a runtime holds them -/

/-- A Go `map[string]int` as the runtime of one run holds it: its entries in the
order in which a `range` statement would visit them, an order that the
language leaves open and that changes from run to run. -/
abbrev GoMap := List (String × Nat)

/-- The part of a run that the language leaves open: the place that the
runtime gives to a new key among the entries of a map. -/
abbrev Layout := GoMap → String → Nat

/-- The expression `m[key]` on a Go map: the value of the key, 0 when the key
is not in the map. -/
def mapGet : GoMap → String → Nat
  | [], _ => 0
  | (k, v) :: rest, key => if k = key then v else mapGet rest key

/-- The statement `m[key]++` on a Go map: the value of a key of the map is
raised in place; a new key enters with the value 1 at the place that the
layout of the run gives. -/
def mapIncr (layout : Layout) (m : GoMap) (key : String) : GoMap :=
  if m.any (fun entry => entry.1 == key) then
    m.map fun entry => if entry.1 = key then (entry.1, entry.2 + 1) else entry
  else m.take (layout m key) ++ (key, 1) :: m.drop (layout m key)

/-- The local variables of `albumCity` in a run. -/
structure CityRun where
  m : GoMap
  count : Nat
  city : String

/-- The body of the loop of `albumCity` in a run. -/
def albumCityRunStep (layout : Layout) (st : CityRun) (photo : Location) : CityRun :=
  let m := mapIncr layout st.m photo.City
  if mapGet m photo.City > st.count then
    { m := m, count := mapGet m photo.City, city := photo.City }
  else { m := m, count := st.count, city := st.city }

/-- The state of `albumCity` after its loop in a run. -/
def albumCityRunLoop (layout : Layout) (album : List Location) : CityRun :=
  album.foldl (albumCityRunStep layout) { m := [], count := 0, city := "" }

/-- The function `albumCity` in a run. -/
def albumCityRun (layout : Layout) (album : List Location) : String :=
  (albumCityRunLoop layout album).city

/-- The local variables of `weatherConditions` in a run. -/
structure MoodRun where
  m : GoMap
  count : Nat
  weather : String

/-- One case body of the `switch` of `weatherConditions` in a run (see `tally`). -/
def tallyRun (layout : Layout) (st : MoodRun) (key source : String) : MoodRun :=
  let m := mapIncr layout st.m key
  if mapGet m key > st.count then { m := m, count := mapGet m source, weather := key }
  else { m := m, count := st.count, weather := st.weather }

/-- The body of the loop of `weatherConditions` in a run. -/
def weatherRunStep (layout : Layout) (st : MoodRun) (photo : Location) : MoodRun :=
  if MatchString rainyRegExp (ToLower photo.Weather) then tallyRun layout st "rainy" "rainy"
  else if MatchString snowyRegExp (ToLower photo.Weather) then tallyRun layout st "snowy" "snowy"
  else if MatchString stormyRegExp (ToLower photo.Weather) then
    tallyRun layout st "stormy" "stormy"
  else if MatchString icyRegExp (ToLower photo.Weather) then tallyRun layout st "chilly" "icy"
  else if MatchString foggyRegExp (ToLower photo.Weather) then tallyRun layout st "foggy" "foggy"
  else tallyRun layout st "sunny" "sunny"

/-- The state of `weatherConditions` after its loop in a run. -/
def weatherRunLoop (layout : Layout) (album : List Location) : MoodRun :=
  album.foldl (weatherRunStep layout) { m := [], count := 0, weather := "" }

/-- The function `weatherConditions` in a run. -/
def weatherConditionsRun (layout : Layout) (album : List Location) : String :=
  (weatherRunLoop layout album).weather

/-- The method `Processor.Process` in a run: the two tally maps are Go maps laid
out by the runtime of the run; `none` when the call panics. -/
def ProcessRun {F : Type} (layout : Layout) (parseFloat : String → Except GoError F)
    (locator : Locator F) (weatherman : Weatherman F) (data : List (List String)) :
    Option (String × List GoError) :=
  match data.foldlM (processRow parseFloat locator weatherman) { errs := [], albumMetadata := [] } with
  | none => none
  | some acc =>
    if acc.albumMetadata.length = 0 then some ("", acc.errs)
    else
      some ("A " ++ weatherConditionsRun layout acc.albumMetadata ++ " "
        ++ albumPeriod acc.albumMetadata ++ " in " ++ albumCityRun layout acc.albumMetadata,
        acc.errs)

/-- A layout that puts every new key before the entries of the map. -/
def frontLayout : Layout := fun _ _ => 0

/-- A layout that puts every new key after the entries of the map. -/
def backLayout : Layout := fun m _ => m.length

/-! ## The lower-casing model is exact for the patterns -/

theorem isPrefixOf_map_lower (lower : Char → Char)
    (hagree : ∀ c, (lower c).toNat < 128 ∨ (unicodeToLower c).toNat < 128 →
      lower c = unicodeToLower c)
    (keyword : List Char) (hascii : ∀ a ∈ keyword, a.toNat < 128) (xs : List Char) :
    keyword.isPrefixOf (xs.map lower) = keyword.isPrefixOf (xs.map unicodeToLower) := by
  induction keyword generalizing xs with
  | nil => simp
  | cons a rest ih =>
    cases xs with
    | nil => simp
    | cons x xs =>
      simp only [List.map_cons, List.isPrefixOf_cons₂]
      rw [ih (fun b hb => hascii b (List.mem_cons_of_mem _ hb)) xs]
      congr 1
      by_cases heq : lower x = unicodeToLower x
      · rw [heq]
      · have h1 : ¬ (lower x).toNat < 128 := fun h => heq (hagree x (Or.inl h))
        have h2 : ¬ (unicodeToLower x).toNat < 128 := fun h => heq (hagree x (Or.inr h))
        have ha := hascii a (List.mem_cons_self _ _)
        have e1 : (a == lower x) = false := by
          rw [beq_eq_false_iff_ne]
          intro h
          rw [h] at ha
          exact h1 ha
        have e2 : (a == unicodeToLower x) = false := by
          rw [beq_eq_false_iff_ne]
          intro h
          rw [h] at ha
          exact h2 ha
        rw [e1, e2]

theorem hasInfix_map_lower (lower : Char → Char)
    (hagree : ∀ c, (lower c).toNat < 128 ∨ (unicodeToLower c).toNat < 128 →
      lower c = unicodeToLower c)
    (keyword : List Char) (hascii : ∀ a ∈ keyword, a.toNat < 128) (xs : List Char) :
    hasInfix keyword (xs.map lower) = hasInfix keyword (xs.map unicodeToLower) := by
  induction xs with
  | nil => rfl
  | cons x xs ih =>
    have hp := isPrefixOf_map_lower lower hagree keyword hascii (x :: xs)
    simp only [List.map_cons] at hp ⊢
    unfold hasInfix
    rw [hp, ih]

/-- A pattern made of ASCII characters matches the text lower-cased by
`ToLower` exactly when it matches the text lower-cased with any table of rune
cases that gives the same rune as `unicodeToLower` wherever one of the two
gives an ASCII character; the table of Go's package `unicode` is such a table. -/
theorem MatchString_lower_exact (lower : Char → Char)
    (hagree : ∀ c, (lower c).toNat < 128 ∨ (unicodeToLower c).toNat < 128 →
      lower c = unicodeToLower c)
    (alternatives : List String)
    (hascii : ∀ a ∈ alternatives, ∀ c ∈ a.data, c.toNat < 128) (s : String) :
    MatchString alternatives (String.mk (s.data.map lower))
      = MatchString alternatives (ToLower s) := by
  unfold MatchString ToLower
  induction alternatives with
  | nil => rfl
  | cons a rest ih =>
    rw [List.any_cons, List.any_cons,
      hasInfix_map_lower lower hagree a.data (hascii a (List.mem_cons_self _ _)) s.data,
      ih (fun b hb => hascii b (List.mem_cons_of_mem _ hb))]

/-- The five patterns of `weatherConditions` are made of ASCII letters. -/
theorem moodPatterns_ascii :
    ∀ pattern ∈ [rainyRegExp, snowyRegExp, stormyRegExp, icyRegExp, foggyRegExp],
      ∀ a ∈ pattern, ∀ c ∈ a.data, c.toNat < 128 := by
  decide

/-! ## Lemmas on the batch loop -/

theorem processRow_eq {F : Type} (parseFloat : String → Except GoError F) (locator : Locator F)
    (weatherman : Weatherman F) (acc : Batch) (row : List String) :
    processRow parseFloat locator weatherman acc row =
      match enrich parseFloat locator weatherman row with
      | .panic => none
      | .error err => some { acc with errs := acc.errs ++ [err] }
      | .ok v => some { acc with albumMetadata := acc.albumMetadata ++ [v] } := by
  unfold processRow enrich
  cases mapDataRowToStruct parseFloat row with
  | panic => rfl
  | error err => rfl
  | ok metadata =>
    simp only
    cases locator metadata.latitude metadata.longitude with
    | error err => rfl
    | ok photoMetadata =>
      simp only
      cases weatherman metadata.latitude metadata.longitude metadata.date with
      | error err => rfl
      | ok weatherCondition => rfl

/-- The loop of `Process` returns exactly when no row panics, and then it has
appended the error entries and the records of the rows in input order. -/
theorem foldlM_processRow {F : Type} (parseFloat : String → Except GoError F)
    (locator : Locator F) (weatherman : Weatherman F) (data : List (List String)) (acc : Batch) :
    data.foldlM (processRow parseFloat locator weatherman) acc =
      if data.any (fun row => (enrich parseFloat locator weatherman row).panics) then none
      else some
        { errs := acc.errs ++ rowErrors parseFloat locator weatherman data,
          albumMetadata := acc.albumMetadata ++ enrichedRecords parseFloat locator weatherman data } := by
  induction data generalizing acc with
  | nil => simp [rowErrors, enrichedRecords]
  | cons row rest ih =>
    rw [List.foldlM_cons, processRow_eq]
    cases h : enrich parseFloat locator weatherman row with
    | panic => simp [h, Outcome.panics]
    | error err =>
      simp only [Option.some_bind, ih]
      simp [h, rowErrors, enrichedRecords, Outcome.failure?, Outcome.record?, Outcome.panics]
    | ok v =>
      simp only [Option.some_bind, ih]
      simp [h, rowErrors, enrichedRecords, Outcome.failure?, Outcome.record?, Outcome.panics]

/-- The value of `Process` on every input. -/
theorem Process_eq {F : Type} (parseFloat : String → Except GoError F) (locator : Locator F)
    (weatherman : Weatherman F) (data : List (List String)) :
    Process parseFloat locator weatherman data =
      if data.any (fun row => (enrich parseFloat locator weatherman row).panics) then none
      else if (enrichedRecords parseFloat locator weatherman data).length = 0 then
        some ("", rowErrors parseFloat locator weatherman data)
      else
        some ("A " ++ weatherConditions (enrichedRecords parseFloat locator weatherman data) ++ " "
          ++ albumPeriod (enrichedRecords parseFloat locator weatherman data) ++ " in "
          ++ albumCity (enrichedRecords parseFloat locator weatherman data),
          rowErrors parseFloat locator weatherman data) := by
  unfold Process
  rw [foldlM_processRow]
  by_cases hp : data.any (fun row => (enrich parseFloat locator weatherman row).panics) = true
  · rw [if_pos hp, if_pos hp]
  · rw [if_neg hp, if_neg hp]
    simp only [List.nil_append]

/-- A row with no field or with at least three fields does not make
`mapDataRowToStruct` panic. -/
theorem mapDataRowToStruct_panics_false {F : Type} (parseFloat : String → Except GoError F)
    (row : List String) (hlen : row.length = 0 ∨ 3 ≤ row.length) :
    (mapDataRowToStruct parseFloat row).panics = false := by
  unfold mapDataRowToStruct
  rcases hlen with h0 | h3
  · simp [h0, Outcome.panics]
  · match row, h3 with
    | a :: b :: c :: rest, _ =>
      simp only [List.length_cons, List.getElem?_cons_zero, List.getElem?_cons_succ]
      split
      · rfl
      · cases timeParse a <;> simp only <;> try rfl
        cases parseFloat b <;> simp only <;> try rfl
        cases parseFloat c <;> rfl

theorem enrich_panics {F : Type} (parseFloat : String → Except GoError F) (locator : Locator F)
    (weatherman : Weatherman F) (row : List String) :
    (enrich parseFloat locator weatherman row).panics = (mapDataRowToStruct parseFloat row).panics := by
  unfold enrich
  cases mapDataRowToStruct parseFloat row with
  | panic => rfl
  | error err => rfl
  | ok metadata =>
    simp only
    cases locator metadata.latitude metadata.longitude with
    | error err => rfl
    | ok photoMetadata =>
      simp only
      cases weatherman metadata.latitude metadata.longitude metadata.date <;> rfl

/-- On rows with no field or at least three fields no row panics. -/
theorem any_panics_false {F : Type} (parseFloat : String → Except GoError F) (locator : Locator F)
    (weatherman : Weatherman F) (data : List (List String))
    (hlen : ∀ row ∈ data, row.length = 0 ∨ 3 ≤ row.length) :
    data.any (fun row => (enrich parseFloat locator weatherman row).panics) = false := by
  rw [List.any_eq_false]
  intro row hrow
  rw [enrich_panics, mapDataRowToStruct_panics_false parseFloat row (hlen row hrow)]
  simp

/-- The title of a non-empty album is not the empty string. -/
theorem title_ne_empty (mood span place : String) :
    "A " ++ mood ++ " " ++ span ++ " in " ++ place ≠ "" := by
  intro h
  have hl := congrArg String.length h
  simp only [String.length_append] at hl
  have h2 : ("A " : String).length = 2 := by decide
  have h0 : ("" : String).length = 0 := by decide
  omega

/-- A row that does not panic is enriched or fails, not both. -/
theorem record_or_failure (o : Outcome Location) (h : o.panics = false) :
    (o.record?.isSome ∧ o.failure? = none) ∨ (o.failure?.isSome ∧ o.record? = none) := by
  cases o with
  | ok v => left; exact ⟨rfl, rfl⟩
  | error err => right; exact ⟨rfl, rfl⟩
  | panic => simp [Outcome.panics] at h

/-- The records and the error entries of a batch without panic share out its rows. -/
theorem length_rowErrors_add {F : Type} (parseFloat : String → Except GoError F)
    (locator : Locator F) (weatherman : Weatherman F) (data : List (List String))
    (hsafe : data.any (fun row => (enrich parseFloat locator weatherman row).panics) = false) :
    (rowErrors parseFloat locator weatherman data).length
      + (enrichedRecords parseFloat locator weatherman data).length = data.length := by
  induction data with
  | nil => rfl
  | cons row rest ih =>
    rw [List.any_cons, Bool.or_eq_false_iff] at hsafe
    have ih := ih hsafe.2
    unfold rowErrors enrichedRecords at ih ⊢
    cases h : enrich parseFloat locator weatherman row with
    | panic => rw [h] at hsafe; simp [Outcome.panics] at hsafe
    | error err =>
      rw [List.filterMap_cons_some (by rw [h]; rfl), List.filterMap_cons_none (by rw [h]; rfl)]
      simp only [List.length_cons]
      omega
    | ok v =>
      rw [List.filterMap_cons_none (by rw [h]; rfl), List.filterMap_cons_some (by rw [h]; rfl)]
      simp only [List.length_cons]
      omega

/-! ## The batch driver: claims C1 to C4 -/

/-- C1: whenever at least one row is enriched successfully, every title that
`Process` returns is `"A " + mood + " " + span + " in " + place`, the three words
being `weatherConditions`, `albumPeriod` and `albumCity` of the successfully
enriched records in input order; and `Process` does return on rows that have
no field or at least three fields. -/
theorem Process_title_composed {F : Type} (parseFloat : String → Except GoError F)
    (locator : Locator F) (weatherman : Weatherman F) (data : List (List String))
    (hne : enrichedRecords parseFloat locator weatherman data ≠ []) :
    (∀ out, Process parseFloat locator weatherman data = some out →
      out.1 = "A " ++ weatherConditions (enrichedRecords parseFloat locator weatherman data) ++ " "
        ++ albumPeriod (enrichedRecords parseFloat locator weatherman data) ++ " in "
        ++ albumCity (enrichedRecords parseFloat locator weatherman data))
    ∧ ((∀ row ∈ data, row.length = 0 ∨ 3 ≤ row.length) →
      ∃ out, Process parseFloat locator weatherman data = some out) := by
  have hlen : (enrichedRecords parseFloat locator weatherman data).length ≠ 0 := by
    simpa [List.length_eq_zero] using hne
  refine ⟨?_, ?_⟩
  · intro out hout
    rw [Process_eq] at hout
    by_cases hp : data.any (fun row => (enrich parseFloat locator weatherman row).panics) = true
    · rw [if_pos hp] at hout
      cases hout
    · rw [if_neg hp, if_neg hlen] at hout
      cases hout
      rfl
  · intro hwf
    rw [Process_eq, any_panics_false parseFloat locator weatherman data hwf]
    simp [hlen]

/-- The test `foggy weekend`: the three New York rows with weather Rain,
Overcast and Fog give "A foggy weekend in New York" and no errors. -/
theorem Process_title_composed_witness :
    Process decimalLiteral newYorkLocator foggyWeekendWeatherman foggyWeekendRows
        = some ("A foggy weekend in New York", [])
    ∧ "A foggy weekend in New York"
        = "A " ++ weatherConditions
              (enrichedRecords decimalLiteral newYorkLocator foggyWeekendWeatherman foggyWeekendRows)
          ++ " " ++ albumPeriod
              (enrichedRecords decimalLiteral newYorkLocator foggyWeekendWeatherman foggyWeekendRows)
          ++ " in " ++ albumCity
              (enrichedRecords decimalLiteral newYorkLocator foggyWeekendWeatherman foggyWeekendRows) :=
  ⟨by rfl,
   (Process_title_composed decimalLiteral newYorkLocator foggyWeekendWeatherman foggyWeekendRows
      (by decide)).1 ("A foggy weekend in New York", []) (by rfl)⟩

/-- C2: every title that `Process` returns is empty exactly when no row is
enriched successfully; in that case every row has failed (parsing, place lookup
or weather lookup) and the returned list holds the error entry of every row, in
input order. `Process` does return on rows that have no field or at least three
fields. -/
theorem Process_title_empty_iff {F : Type} (parseFloat : String → Except GoError F)
    (locator : Locator F) (weatherman : Weatherman F) (data : List (List String)) :
    (∀ out, Process parseFloat locator weatherman data = some out →
      (out.1 = "" ↔ enrichedRecords parseFloat locator weatherman data = [])
      ∧ (enrichedRecords parseFloat locator weatherman data = [] →
          out.2 = rowErrors parseFloat locator weatherman data
          ∧ out.2.length = data.length
          ∧ ∀ row ∈ data, ∃ err, enrich parseFloat locator weatherman row = .error err))
    ∧ ((∀ row ∈ data, row.length = 0 ∨ 3 ≤ row.length) →
      ∃ out, Process parseFloat locator weatherman data = some out) := by
  refine ⟨?_, ?_⟩
  · intro out hout
    rw [Process_eq] at hout
    by_cases hp : data.any (fun row => (enrich parseFloat locator weatherman row).panics) = true
    · rw [if_pos hp] at hout
      cases hout
    · rw [if_neg hp] at hout
      have hsafe := Bool.eq_false_iff.mpr hp
      have hsum := length_rowErrors_add parseFloat locator weatherman data hsafe
      by_cases hlen : (enrichedRecords parseFloat locator weatherman data).length = 0
      · rw [if_pos hlen] at hout
        cases hout
        have hnil := List.length_eq_zero.mp hlen
        refine ⟨⟨fun _ => hnil, fun _ => rfl⟩, fun _ => ⟨rfl, ?_, ?_⟩⟩
        · show (rowErrors parseFloat locator weatherman data).length = data.length
          omega
        · intro row hrow
          have hrec : (enrich parseFloat locator weatherman row).record? = none := by
            have := List.filterMap_eq_nil_iff.mp hnil row hrow
            exact this
          have hnp : (enrich parseFloat locator weatherman row).panics = false :=
            List.any_eq_false.mp hsafe row hrow |> Bool.eq_false_iff.mpr
          cases h : enrich parseFloat locator weatherman row with
          | ok v => rw [h] at hrec; cases hrec
          | error err => exact ⟨err, rfl⟩
          | panic => rw [h] at hnp; cases hnp
      · rw [if_neg hlen] at hout
        cases hout
        have hnil : enrichedRecords parseFloat locator weatherman data ≠ [] :=
          fun h => hlen (List.length_eq_zero.mpr h)
        exact ⟨⟨fun h => absurd h (title_ne_empty _ _ _), fun h => absurd h hnil⟩,
          fun h => absurd h hnil⟩
  · intro hwf
    rw [Process_eq, any_panics_false parseFloat locator weatherman data hwf]
    by_cases hlen : (enrichedRecords parseFloat locator weatherman data).length = 0
    · exact ⟨_, by simp only [Bool.false_eq_true, if_false, if_pos hlen]; rfl⟩
    · exact ⟨_, by simp only [Bool.false_eq_true, if_false, if_neg hlen]; rfl⟩

/-- The test `locator/weatherman fails` with a place resolver that fails on both
rows: the title is empty and both error entries are returned. -/
theorem Process_title_empty_iff_witness :
    Process decimalLiteral failingLocator foggyWeekendWeatherman
        [["2020-03-30T14:12:19Z", "40.728808", "-73.996106"],
         ["2020-03-29T14:20:10Z", "40.728656", "-73.998790"]]
      = some ("", [.wrapError "invalid photo: " (.errorString "argh"),
                   .wrapError "invalid photo: " (.errorString "argh")])
    ∧ (("" : String) = "" ↔ enrichedRecords decimalLiteral failingLocator foggyWeekendWeatherman
        [["2020-03-30T14:12:19Z", "40.728808", "-73.996106"],
         ["2020-03-29T14:20:10Z", "40.728656", "-73.998790"]] = []) :=
  ⟨by rfl,
   ((Process_title_empty_iff decimalLiteral failingLocator foggyWeekendWeatherman
      [["2020-03-30T14:12:19Z", "40.728808", "-73.996106"],
       ["2020-03-29T14:20:10Z", "40.728656", "-73.998790"]]).1
      ("", [.wrapError "invalid photo: " (.errorString "argh"),
            .wrapError "invalid photo: " (.errorString "argh")]) (by rfl)).1⟩

/-- C3: on rows of three fields `Process` returns, the returned errors are the
error entries of the failing rows in input order, every row is either enriched
or contributes one error entry (never both, never neither), and the number of
errors plus the number of enriched records is the number of rows. -/
theorem Process_no_early_exit {F : Type} (parseFloat : String → Except GoError F)
    (locator : Locator F) (weatherman : Weatherman F) (data : List (List String))
    (hwf : ∀ row ∈ data, row.length = 3) :
    ∃ title errs, Process parseFloat locator weatherman data = some (title, errs)
      ∧ errs = rowErrors parseFloat locator weatherman data
      ∧ errs.length + (enrichedRecords parseFloat locator weatherman data).length = data.length
      ∧ ∀ row ∈ data,
          ((enrich parseFloat locator weatherman row).record?.isSome
            ∧ (enrich parseFloat locator weatherman row).failure? = none)
          ∨ ((enrich parseFloat locator weatherman row).failure?.isSome
            ∧ (enrich parseFloat locator weatherman row).record? = none) := by
  have hlen : ∀ row ∈ data, row.length = 0 ∨ 3 ≤ row.length :=
    fun row hrow => Or.inr (le_of_eq (hwf row hrow).symm)
  have hsafe := any_panics_false parseFloat locator weatherman data hlen
  have hsum := length_rowErrors_add parseFloat locator weatherman data hsafe
  have hrows : ∀ row ∈ data,
      ((enrich parseFloat locator weatherman row).record?.isSome
        ∧ (enrich parseFloat locator weatherman row).failure? = none)
      ∨ ((enrich parseFloat locator weatherman row).failure?.isSome
        ∧ (enrich parseFloat locator weatherman row).record? = none) :=
    fun row hrow => record_or_failure _
      (List.any_eq_false.mp hsafe row hrow |> Bool.eq_false_iff.mpr)
  rw [Process_eq, hsafe]
  by_cases hz : (enrichedRecords parseFloat locator weatherman data).length = 0
  · exact ⟨_, _, by simp only [Bool.false_eq_true, if_false, if_pos hz]; rfl, rfl, hsum, hrows⟩
  · exact ⟨_, _, by simp only [Bool.false_eq_true, if_false, if_neg hz]; rfl, rfl, hsum, hrows⟩

/-- The test `locator/weatherman fails`: the first row fails at the place
resolver, the second at the weather resolver; two rows, two errors, no record. -/
theorem Process_no_early_exit_witness :
    ∃ title errs,
      Process decimalLiteral
          (fun lat _ => if lat = "40.728808" then .error (.errorString "argh")
            else newYorkLocator lat lat)
          (fun _ _ _ => .error (.errorString "argh"))
          [["2020-03-30T14:12:19Z", "40.728808", "-73.996106"],
           ["2020-03-29T14:20:10Z", "40.728656", "-73.998790"]] = some (title, errs)
      ∧ errs.length = 2 := by
  obtain ⟨title, errs, hret, herrs, _, _⟩ :=
    Process_no_early_exit decimalLiteral
      (fun lat _ => if lat = "40.728808" then .error (.errorString "argh")
        else newYorkLocator lat lat)
      (fun _ _ _ => .error (.errorString "argh"))
      [["2020-03-30T14:12:19Z", "40.728808", "-73.996106"],
       ["2020-03-29T14:20:10Z", "40.728656", "-73.998790"]]
      (by decide)
  exact ⟨title, errs, hret, by rw [herrs]; rfl⟩

/-- C4 (evaluation of the code): a row that holds a valid timestamp and nothing
else passes the guard `len(metadata) < 1`, and `metadata[1]` is then out of
range: `mapDataRowToStruct` panics, and so does `Process`, which returns neither
a title nor an error list, whatever the float parser and the resolvers. -/
theorem Process_panics_on_short_row {F : Type} (parseFloat : String → Except GoError F)
    (locator : Locator F) (weatherman : Weatherman F) :
    (mapDataRowToStruct parseFloat ["2020-03-30T14:12:19Z"]).panics = true
    ∧ Process parseFloat locator weatherman [["2020-03-30T14:12:19Z"]] = none
    ∧ Process parseFloat locator weatherman
        [["2020-03-29T14:20:10Z", "40.728656", "-73.998790"], ["2020-03-30T14:12:19Z"]] = none := by
  have hp : (mapDataRowToStruct parseFloat ["2020-03-30T14:12:19Z"]).panics = true := by rfl
  refine ⟨hp, ?_, ?_⟩
  · rw [Process_eq]
    simp [enrich_panics, hp]
  · rw [Process_eq]
    simp [enrich_panics, hp]

/-! ## The mood classifier: claims C5, C6 and C10 -/

/-- C5 (evaluation of the code): on the conditions Ice, Ice, Rain the bucket
"chilly" has tally 2 and "rainy" has tally 1, and `weatherConditions` returns
"rainy": the case of `icyRegExp` sets `count` to `m["icy"]`, which is 0, so the
next record of any bucket takes the lead. -/
theorem weatherConditions_smaller_tally :
    weatherConditions [withWeather "Ice", withWeather "Ice", withWeather "Rain"] = "rainy"
    ∧ bucketTally "rainy" [withWeather "Ice", withWeather "Ice", withWeather "Rain"] = 1
    ∧ bucketTally "chilly" [withWeather "Ice", withWeather "Ice", withWeather "Rain"] = 2
    ∧ (weatherLoop [withWeather "Ice", withWeather "Ice"]).count = 0 := by
  refine ⟨by rfl, by rfl, by rfl, by rfl⟩

/-- C6 (evaluation of the code): on the conditions Ice, Rain both buckets end
with tally 1 and "chilly" reaches 1 first, and `weatherConditions` returns
"rainy": after the record Ice the leader is "chilly" with `count` 0, not 1, so
the running tally 1 of "rainy" exceeds it. -/
theorem weatherConditions_tie_lost :
    weatherConditions [withWeather "Ice", withWeather "Rain"] = "rainy"
    ∧ bucketTally "chilly" [withWeather "Ice", withWeather "Rain"] = 1
    ∧ bucketTally "rainy" [withWeather "Ice", withWeather "Rain"] = 1
    ∧ (weatherLoop [withWeather "Ice"]).weather = "chilly"
    ∧ (weatherLoop [withWeather "Ice"]).count = 0
    ∧ weatherConditions [withWeather "Rain", withWeather "Ice"] = "rainy" := by
  refine ⟨by rfl, by rfl, by rfl, by rfl, by rfl, by rfl⟩

theorem tally_init_weather (key source : String) :
    (tally { m := fun _ => 0, count := 0, weather := "" } key source).weather = key := by
  simp [tally, incr]

/-- C10: on a collection of one record `weatherConditions` returns the bucket of
the record by first match in the priority order rainy, snowy, stormy, chilly,
foggy, sunny; a text in which both "rain" and "snow" occur (after lower-casing)
is "rainy"; "Tornado" is "stormy" and "Ice" is "chilly". -/
theorem weatherConditions_single (photo : Location) :
    weatherConditions [photo] = moodBucket photo.Weather
    ∧ (hasInfix "rain".data (ToLower photo.Weather).data = true
        → hasInfix "snow".data (ToLower photo.Weather).data = true
        → weatherConditions [photo] = "rainy")
    ∧ weatherConditions [withWeather "Tornado"] = "stormy"
    ∧ weatherConditions [withWeather "Ice"] = "chilly" := by
  have hstep : weatherConditions [photo]
      = (weatherStep { m := fun _ => 0, count := 0, weather := "" } photo).weather := rfl
  refine ⟨?_, ?_, by rfl, by rfl⟩
  · rw [hstep]
    unfold weatherStep moodBucket moodTable
    simp only [List.find?_cons, List.find?_nil]
    by_cases h1 : MatchString rainyRegExp (ToLower photo.Weather) = true
    · have h1b := h1
      unfold MatchString rainyRegExp at h1b
      rw [if_pos h1, tally_init_weather, h1b]
    · have h1b := h1
      unfold MatchString rainyRegExp at h1b
      rw [if_neg h1, Bool.eq_false_iff.mpr h1b]
      by_cases h2 : MatchString snowyRegExp (ToLower photo.Weather) = true
      · have h2b := h2
        unfold MatchString snowyRegExp at h2b
        rw [if_pos h2, tally_init_weather, h2b]
      · have h2b := h2
        unfold MatchString snowyRegExp at h2b
        rw [if_neg h2, Bool.eq_false_iff.mpr h2b]
        by_cases h3 : MatchString stormyRegExp (ToLower photo.Weather) = true
        · have h3b := h3
          unfold MatchString stormyRegExp at h3b
          rw [if_pos h3, tally_init_weather, h3b]
        · have h3b := h3
          unfold MatchString stormyRegExp at h3b
          rw [if_neg h3, Bool.eq_false_iff.mpr h3b]
          by_cases h4 : MatchString icyRegExp (ToLower photo.Weather) = true
          · have h4b := h4
            unfold MatchString icyRegExp at h4b
            rw [if_pos h4, tally_init_weather, h4b]
          · have h4b := h4
            unfold MatchString icyRegExp at h4b
            rw [if_neg h4, Bool.eq_false_iff.mpr h4b]
            by_cases h5 : MatchString foggyRegExp (ToLower photo.Weather) = true
            · have h5b := h5
              unfold MatchString foggyRegExp at h5b
              rw [if_pos h5, tally_init_weather, h5b]
            · have h5b := h5
              unfold MatchString foggyRegExp at h5b
              rw [if_neg h5, Bool.eq_false_iff.mpr h5b, tally_init_weather]
  · intro hrain _
    rw [hstep]
    have h1 : MatchString rainyRegExp (ToLower photo.Weather) = true := by
      unfold MatchString rainyRegExp
      simp only [List.any_cons, hrain, Bool.true_or]
    unfold weatherStep
    rw [if_pos h1, tally_init_weather]

/-- A text with both keywords: "Rain and snow" is "rainy", and so is "Snow, then
rain". A text with a capital outside ASCII: "İCE", whose first letter is U+0130,
is lower-cased to "ice" and is "chilly", by the code and by the bucket of the
specification alike. -/
theorem weatherConditions_single_witness :
    weatherConditions [withWeather "Rain and snow"] = "rainy"
    ∧ weatherConditions [withWeather "Snow, then rain"] = "rainy"
    ∧ ToLower "İCE" = "ice"
    ∧ weatherConditions [withWeather "İCE"] = "chilly"
    ∧ moodBucket "İCE" = "chilly" :=
  ⟨(weatherConditions_single (withWeather "Rain and snow")).2.1 (by rfl) (by rfl),
   (weatherConditions_single (withWeather "Snow, then rain")).2.1 (by rfl) (by rfl),
   by rfl,
   ((weatherConditions_single (withWeather "İCE")).1).trans (by rfl),
   by rfl⟩

/-! ## The place classifier: claim C7 -/

theorem cityCount_append (name : String) (xs ys : List Location) :
    cityCount name (xs ++ ys) = cityCount name xs + cityCount name ys := by
  simp [cityCount]

theorem cityCount_single_self (photo : Location) : cityCount photo.City [photo] = 1 := by
  simp [cityCount]

theorem cityCount_single_ne (name : String) (photo : Location) (h : name ≠ photo.City) :
    cityCount name [photo] = 0 := by
  simp only [cityCount, List.map_cons, List.map_nil]
  rw [List.count_singleton]
  have : (photo.City == name) = false := by
    simpa using fun h2 => h h2.symm
  rw [this]
  rfl

theorem albumCityLoop_concat (xs : List Location) (photo : Location) :
    albumCityLoop (xs ++ [photo]) = albumCityStep (albumCityLoop xs) photo := by
  simp [albumCityLoop, List.foldl_append]

theorem albumCityStep_inv (xs : List Location) (st : CityState) (photo : Location)
    (inv : CityInv xs st) : CityInv (xs ++ [photo]) (albumCityStep st photo) := by
  have hm : incr st.m photo.City photo.City = cityCount photo.City xs + 1 := by
    simp [incr, inv.tallies]
  unfold albumCityStep
  simp only [hm]
  by_cases hgt : cityCount photo.City xs + 1 > st.count
  · rw [if_pos hgt]
    refine ⟨?_, ?_, ?_⟩
    · intro name
      by_cases hn : name = photo.City
      · subst hn
        simp [incr, inv.tallies, cityCount_append, cityCount_single_self]
      · simp [incr, hn, inv.tallies, cityCount_append, cityCount_single_ne name photo hn]
    · intro name
      by_cases hn : name = photo.City
      · subst hn
        simp [cityCount_append, cityCount_single_self]
      · have := inv.bound name
        simp only [cityCount_append, cityCount_single_ne name photo hn]
        omega
    · right
      refine ⟨xs ++ [photo], [], by simp, ?_, ?_⟩
      · simp [cityCount_append, cityCount_single_self]
      · intro name hn
        have := inv.bound name
        simp only [cityCount_append, cityCount_single_ne name photo hn]
        omega
  · rw [if_neg hgt]
    refine ⟨?_, ?_, ?_⟩
    · intro name
      by_cases hn : name = photo.City
      · subst hn
        simp [incr, inv.tallies, cityCount_append, cityCount_single_self]
      · simp [incr, hn, inv.tallies, cityCount_append, cityCount_single_ne name photo hn]
    · intro name
      by_cases hn : name = photo.City
      · subst hn
        simp only [cityCount_append, cityCount_single_self]
        omega
      · have := inv.bound name
        simp only [cityCount_append, cityCount_single_ne name photo hn]
        omega
    · rcases inv.lead with h0 | ⟨pre, post, hsplit, hlead, hothers⟩
      · omega
      · right
        exact ⟨pre, post ++ [photo], by rw [hsplit, List.append_assoc], hlead, hothers⟩

theorem albumCityLoop_inv (album : List Location) : CityInv album (albumCityLoop album) := by
  induction album using List.reverseRecOn with
  | nil => exact ⟨fun _ => rfl, fun _ => Nat.le_refl 0, Or.inl rfl⟩
  | append_singleton xs photo ih =>
    rw [albumCityLoop_concat]
    exact albumCityStep_inv xs _ photo ih

/-- C7: on a non-empty album `albumCity` returns the primary name of one of its
records, no name occurs more often than the returned one, and there is a point
of the sequence at which the returned name has already reached its final count
while every other name is still below that count: a name that ends with the
same count reaches it later. -/
theorem albumCity_majority (album : List Location) (hne : album ≠ []) :
    (∃ photo ∈ album, photo.City = albumCity album)
    ∧ (∀ name, cityCount name album ≤ cityCount (albumCity album) album)
    ∧ ∃ pre post, album = pre ++ post
        ∧ cityCount (albumCity album) pre = cityCount (albumCity album) album
        ∧ ∀ name, name ≠ albumCity album → cityCount name pre < cityCount (albumCity album) album := by
  have inv := albumCityLoop_inv album
  obtain ⟨first, rest, rfl⟩ := List.exists_cons_of_ne_nil hne
  have hpos : 0 < (albumCityLoop (first :: rest)).count := by
    have h1 := inv.bound first.City
    have h2 : 1 ≤ cityCount first.City (first :: rest) := by
      simp [cityCount]
    omega
  rcases inv.lead with h0 | ⟨pre, post, hsplit, hlead, hothers⟩
  · omega
  · have hfinal : cityCount (albumCity (first :: rest)) (first :: rest)
        = (albumCityLoop (first :: rest)).count := by
      have hle := inv.bound (albumCity (first :: rest))
      have hge : cityCount (albumCity (first :: rest)) pre
          ≤ cityCount (albumCity (first :: rest)) (first :: rest) := by
        have happ := cityCount_append (albumCity (first :: rest)) pre post
        rw [← hsplit] at happ
        omega
      have hlead2 : cityCount (albumCity (first :: rest)) pre
          = (albumCityLoop (first :: rest)).count := hlead
      omega
    refine ⟨?_, ?_, pre, post, hsplit, ?_, ?_⟩
    · have hc : 0 < ((first :: rest).map Location.City).count (albumCity (first :: rest)) := by
        have : cityCount (albumCity (first :: rest)) (first :: rest)
            = ((first :: rest).map Location.City).count (albumCity (first :: rest)) := rfl
        omega
      have hmem := List.count_pos_iff.mp hc
      obtain ⟨photo, hp, hcity⟩ := List.mem_map.mp hmem
      exact ⟨photo, hp, hcity⟩
    · intro name
      rw [hfinal]
      exact inv.bound name
    · rw [hfinal]
      exact hlead
    · intro name hn
      rw [hfinal]
      exact hothers name hn

/-- Two records in New York and one in Boston: "New York" in each of the three orders. -/
theorem albumCity_majority_witness :
    albumCity [inCity "New York", inCity "New York", inCity "Boston"] = "New York"
    ∧ albumCity [inCity "New York", inCity "Boston", inCity "New York"] = "New York"
    ∧ albumCity [inCity "Boston", inCity "New York", inCity "New York"] = "New York"
    ∧ albumCity [inCity "Boston", inCity "New York"] = "Boston"
    ∧ ∀ name, cityCount name [inCity "New York", inCity "New York", inCity "Boston"]
        ≤ cityCount (albumCity [inCity "New York", inCity "New York", inCity "Boston"])
            [inCity "New York", inCity "New York", inCity "Boston"] :=
  ⟨by rfl, by rfl, by rfl, by rfl,
   (albumCity_majority [inCity "New York", inCity "New York", inCity "Boston"] (by decide)).2.1⟩

/-! ## The span classifier: claims C8 and C9 -/

/-- The loop of `albumPeriod` started at `(a, b)`: the first component is below
`a` and every date of `xs` and is one of them, and dually for the second. -/
theorem albumPeriod_fold (xs : List Location) (a b : Int) :
    ((xs.foldl albumPeriodStep (a, b)).1 ≤ a
      ∧ (∀ photo ∈ xs, (xs.foldl albumPeriodStep (a, b)).1 ≤ photo.Date)
      ∧ ((xs.foldl albumPeriodStep (a, b)).1 = a
          ∨ ∃ photo ∈ xs, photo.Date = (xs.foldl albumPeriodStep (a, b)).1))
    ∧ (b ≤ (xs.foldl albumPeriodStep (a, b)).2
      ∧ (∀ photo ∈ xs, photo.Date ≤ (xs.foldl albumPeriodStep (a, b)).2)
      ∧ ((xs.foldl albumPeriodStep (a, b)).2 = b
          ∨ ∃ photo ∈ xs, photo.Date = (xs.foldl albumPeriodStep (a, b)).2)) := by
  induction xs generalizing a b with
  | nil => simp
  | cons photo rest ih =>
    rw [List.foldl_cons]
    have hstep : albumPeriodStep (a, b) photo
        = (if photo.Date < a then photo.Date else a, if photo.Date > b then photo.Date else b) := by
      simp [albumPeriodStep, Time.Before, Time.After]
    rw [hstep]
    obtain ⟨a', ha, ha1, ha2, ha3⟩ : ∃ a', a' = (if photo.Date < a then photo.Date else a)
        ∧ a' ≤ a ∧ a' ≤ photo.Date ∧ (a' = a ∨ a' = photo.Date) :=
      ⟨_, rfl, by split <;> omega, by split <;> omega, by split <;> simp⟩
    obtain ⟨b', hb, hb1, hb2, hb3⟩ : ∃ b', b' = (if photo.Date > b then photo.Date else b)
        ∧ b ≤ b' ∧ photo.Date ≤ b' ∧ (b' = b ∨ b' = photo.Date) :=
      ⟨_, rfl, by split <;> omega, by split <;> omega, by split <;> simp⟩
    rw [← ha, ← hb]
    obtain ⟨⟨h1, h2, h3⟩, ⟨h4, h5, h6⟩⟩ := ih a' b'
    refine ⟨⟨by omega, ?_, ?_⟩, ⟨by omega, ?_, ?_⟩⟩
    · intro q hq
      rcases List.mem_cons.mp hq with rfl | hq
      · omega
      · exact h2 q hq
    · rcases h3 with h3 | ⟨q, hq, hqd⟩
      · rcases ha3 with ha3 | ha3
        · exact Or.inl (h3.trans ha3)
        · exact Or.inr ⟨photo, List.mem_cons_self _ _, (h3.trans ha3).symm⟩
      · exact Or.inr ⟨q, List.mem_cons_of_mem _ hq, hqd⟩
    · intro q hq
      rcases List.mem_cons.mp hq with rfl | hq
      · omega
      · exact h5 q hq
    · rcases h6 with h6 | ⟨q, hq, hqd⟩
      · rcases hb3 with hb3 | hb3
        · exact Or.inl (h6.trans hb3)
        · exact Or.inr ⟨photo, List.mem_cons_self _ _, (h6.trans hb3).symm⟩
      · exact Or.inr ⟨q, List.mem_cons_of_mem _ hq, hqd⟩

/-- The period of an album is `periodOf` of its earliest and latest timestamps. -/
theorem albumPeriod_eq_periodOf (album : List Location) (mn mx : Int)
    (hmn : IsEarliest mn album) (hmx : IsLatest mx album) :
    albumPeriod album = periodOf mn mx := by
  obtain ⟨⟨pmn, hpmn, hdmn⟩, hmnle⟩ := hmn
  obtain ⟨⟨pmx, hpmx, hdmx⟩, hmxge⟩ := hmx
  match album, hpmn, hpmx, hmnle, hmxge with
  | first :: rest, hpmn, hpmx, hmnle, hmxge =>
    obtain ⟨⟨h1, h2, h3⟩, ⟨h4, h5, h6⟩⟩ := albumPeriod_fold (first :: rest) first.Date first.Date
    have hmin : ((first :: rest).foldl albumPeriodStep (first.Date, first.Date)).1 = mn := by
      have hle := h2 pmn hpmn
      have hge : mn ≤ ((first :: rest).foldl albumPeriodStep (first.Date, first.Date)).1 := by
        rcases h3 with h3 | ⟨q, hq, hqd⟩
        · rw [h3]
          exact hmnle first (List.mem_cons_self _ _)
        · rw [← hqd]
          exact hmnle q hq
      omega
    have hmax : ((first :: rest).foldl albumPeriodStep (first.Date, first.Date)).2 = mx := by
      have hge := h5 pmx hpmx
      have hle : ((first :: rest).foldl albumPeriodStep (first.Date, first.Date)).2 ≤ mx := by
        rcases h6 with h6 | ⟨q, hq, hqd⟩
        · rw [h6]
          exact hmxge first (List.mem_cons_self _ _)
        · rw [← hqd]
          exact hmxge q hq
      omega
    show periodOf _ _ = periodOf mn mx
    rw [hmin, hmax]

/-- The tests `days > 3` and `days > 1` on the saturated difference are the
comparisons of the true difference with 72 and 24 hours. -/
theorem daysExceed_Sub (mn mx : Int) :
    daysExceed (Time.Sub mx mn) 3 = decide (mx - mn > 72 * Hour)
    ∧ daysExceed (Time.Sub mx mn) 1 = decide (mx - mn > 24 * Hour) := by
  unfold daysExceed Time.Sub
  simp only [Hour, Second, maxDuration, minDuration, decide_eq_decide]
  constructor <;> split_ifs <;> omega

theorem Weekday_lt (t : Int) : Time.Weekday t < 7 := by
  unfold Time.Weekday
  omega

/-- The pattern `Saturday|Sunday|Friday` matches the name of a weekday exactly
when the day is a Friday, a Saturday or a Sunday. -/
theorem weekendRegExp_match (t : Int) :
    MatchString weekendRegExp (weekdayString (Time.Weekday t)) = isWeekendDay (Time.Weekday t) := by
  have h := Weekday_lt t
  generalize Time.Weekday t = d at h
  interval_cases d <;> rfl

theorem periodOf_week (mn mx : Int) (h3 : mx - mn > 72 * Hour) : periodOf mn mx = "week" := by
  unfold periodOf
  rw [(daysExceed_Sub mn mx).1, decide_eq_true h3, if_pos rfl]

theorem periodOf_day (mn mx : Int) (h1 : ¬ mx - mn > 24 * Hour) : periodOf mn mx = "day" := by
  have hH : Hour = 3600000000000 := by decide
  have h3 : ¬ mx - mn > 72 * Hour := by omega
  unfold periodOf
  rw [(daysExceed_Sub mn mx).1, (daysExceed_Sub mn mx).2, decide_eq_false h3, decide_eq_false h1]
  rfl

/-- In the middle band the period is decided by the weekdays of the two extremes. -/
theorem periodOf_middle (mn mx : Int) (h1 : mx - mn > 24 * Hour) (h3 : ¬ mx - mn > 72 * Hour) :
    periodOf mn mx
      = if (isWeekendDay (Time.Weekday mx) || isWeekendDay (Time.Weekday mn)) = true then "weekend"
        else "few days" := by
  unfold periodOf
  rw [(daysExceed_Sub mn mx).1, (daysExceed_Sub mn mx).2, decide_eq_false h3, decide_eq_true h1,
    weekendRegExp_match, weekendRegExp_match]
  rfl

/-- C8: with `mn` the earliest and `mx` the latest timestamp of the album,
`albumPeriod` returns "week" when `mx - mn` is more than 72 hours, "day" when it
is at most 24 hours, and "few days" or "weekend" exactly when it is more than 24
and at most 72 hours. -/
theorem albumPeriod_bands (album : List Location) (mn mx : Int)
    (hmn : IsEarliest mn album) (hmx : IsLatest mx album) :
    (mx - mn > 72 * Hour → albumPeriod album = "week")
    ∧ (mx - mn ≤ 24 * Hour → albumPeriod album = "day")
    ∧ ((24 * Hour < mx - mn ∧ mx - mn ≤ 72 * Hour)
        ↔ (albumPeriod album = "few days" ∨ albumPeriod album = "weekend")) := by
  rw [albumPeriod_eq_periodOf album mn mx hmn hmx]
  have hH : Hour = 3600000000000 := by decide
  by_cases h3 : mx - mn > 72 * Hour
  · have hp : periodOf mn mx = "week" := periodOf_week mn mx h3
    rw [hp]
    refine ⟨fun _ => rfl, fun h => by omega, ⟨fun h => by omega, fun h => ?_⟩⟩
    rcases h with h | h <;> exact absurd h (by decide)
  · by_cases h1 : mx - mn > 24 * Hour
    · refine ⟨fun h => absurd h h3, fun h => by omega, ⟨fun _ => ?_, fun _ => ⟨h1, by omega⟩⟩⟩
      rw [periodOf_middle mn mx h1 h3]
      split
      · exact Or.inr rfl
      · exact Or.inl rfl
    · have hp : periodOf mn mx = "day" := periodOf_day mn mx h1
      rw [hp]
      refine ⟨fun h => absurd h h3, fun _ => rfl, ⟨fun h => absurd h.1 h1, fun h => ?_⟩⟩
      rcases h with h | h <;> exact absurd h (by decide)

/-- The example of the claim: from Saturday 2020-03-28T14:32:02Z to Sunday
2020-03-29T14:20:10Z is less than 24 hours, so "day"; exactly 24 hours is "day",
one nanosecond more is not; exactly 72 hours is not "week", one nanosecond more is. -/
theorem albumPeriod_bands_witness :
    albumPeriod [takenAt (Date 2020 3 29 14 20 10 0), takenAt (Date 2020 3 28 14 32 2 0)] = "day"
    ∧ albumPeriod [takenAt 0, takenAt (24 * Hour)] = "day"
    ∧ albumPeriod [takenAt 0, takenAt (24 * Hour + 1)] = "weekend"
    ∧ albumPeriod [takenAt 0, takenAt (72 * Hour)] = "weekend"
    ∧ albumPeriod [takenAt 0, takenAt (72 * Hour + 1)] = "week" :=
  ⟨(albumPeriod_bands
      [takenAt (Date 2020 3 29 14 20 10 0), takenAt (Date 2020 3 28 14 32 2 0)]
      (Date 2020 3 28 14 32 2 0) (Date 2020 3 29 14 20 10 0)
      ⟨⟨_, List.mem_cons_of_mem _ (List.mem_cons_self _ _), rfl⟩, by decide⟩
      ⟨⟨_, List.mem_cons_self _ _, rfl⟩, by decide⟩).2.1 (by decide),
   by rfl, by rfl, by rfl, by rfl⟩

/-- C9: when the album spans more than 24 and at most 72 hours, `albumPeriod`
returns "weekend" if the weekday of the earliest or of the latest timestamp is
a Friday, a Saturday or a Sunday, and "few days" otherwise; every album with
the same earliest and latest timestamps gets the same answer. -/
theorem albumPeriod_weekend (album : List Location) (mn mx : Int)
    (hmn : IsEarliest mn album) (hmx : IsLatest mx album)
    (hband : 24 * Hour < mx - mn ∧ mx - mn ≤ 72 * Hour) :
    (isWeekendDay (Time.Weekday mn) = true ∨ isWeekendDay (Time.Weekday mx) = true
      → albumPeriod album = "weekend")
    ∧ (¬ (isWeekendDay (Time.Weekday mn) = true ∨ isWeekendDay (Time.Weekday mx) = true)
      → albumPeriod album = "few days")
    ∧ ∀ other : List Location, IsEarliest mn other → IsLatest mx other →
        albumPeriod other = albumPeriod album := by
  have hH : Hour = 3600000000000 := by decide
  have h3 : ¬ (mx - mn > 72 * Hour) := by omega
  have hp := periodOf_middle mn mx hband.1 h3
  refine ⟨?_, ?_, ?_⟩
  · intro hw
    rw [albumPeriod_eq_periodOf album mn mx hmn hmx, hp]
    rcases hw with hw | hw <;> simp [hw]
  · intro hw
    rw [albumPeriod_eq_periodOf album mn mx hmn hmx, hp]
    have hw1 : isWeekendDay (Time.Weekday mn) = false := by
      rcases hb : isWeekendDay (Time.Weekday mn) with _ | _
      · rfl
      · exact absurd (Or.inl hb) hw
    have hw2 : isWeekendDay (Time.Weekday mx) = false := by
      rcases hb : isWeekendDay (Time.Weekday mx) with _ | _
      · rfl
      · exact absurd (Or.inr hb) hw
    simp [hw1, hw2]
  · intro other hmn2 hmx2
    rw [albumPeriod_eq_periodOf album mn mx hmn hmx,
      albumPeriod_eq_periodOf other mn mx hmn2 hmx2]

/-- The tests `foggy weekend` and `get snowy few days`: Saturday 2020-03-28 to
Monday 2020-03-30 is a "weekend"; Tuesday 2020-02-11 to Thursday 2020-02-13 is
"few days". -/
theorem albumPeriod_weekend_witness :
    albumPeriod [takenAt (Date 2020 3 30 14 12 19 0), takenAt (Date 2020 3 29 14 20 10 0),
        takenAt (Date 2020 3 28 14 32 2 0)] = "weekend"
    ∧ albumPeriod [takenAt (Date 2020 2 11 14 12 19 0), takenAt (Date 2020 2 12 14 20 10 0),
        takenAt (Date 2020 2 13 14 32 2 0)] = "few days" :=
  ⟨(albumPeriod_weekend
      [takenAt (Date 2020 3 30 14 12 19 0), takenAt (Date 2020 3 29 14 20 10 0),
        takenAt (Date 2020 3 28 14 32 2 0)]
      (Date 2020 3 28 14 32 2 0) (Date 2020 3 30 14 12 19 0)
      ⟨⟨_, List.mem_cons_of_mem _ (List.mem_cons_of_mem _ (List.mem_cons_self _ _)), rfl⟩,
        by decide⟩
      ⟨⟨_, List.mem_cons_self _ _, rfl⟩, by decide⟩
      (by decide)).1 (by decide),
   (albumPeriod_weekend
      [takenAt (Date 2020 2 11 14 12 19 0), takenAt (Date 2020 2 12 14 20 10 0),
        takenAt (Date 2020 2 13 14 32 2 0)]
      (Date 2020 2 11 14 12 19 0) (Date 2020 2 13 14 32 2 0)
      ⟨⟨_, List.mem_cons_self _ _, rfl⟩, by decide⟩
      ⟨⟨_, List.mem_cons_of_mem _ (List.mem_cons_of_mem _ (List.mem_cons_self _ _)), rfl⟩,
        by decide⟩
      (by decide)).2.1 (by decide)⟩

/-! ## The mood classifier on a uniform album: claim C11 -/

/-- The loop body of `weatherConditions` tallies the record under its bucket. -/
theorem weatherStep_eq_tally (st : MoodState) (photo : Location) :
    weatherStep st photo
      = tally st (moodBucket photo.Weather) (moodSource (moodBucket photo.Weather)) := by
  unfold weatherStep moodBucket moodTable
  simp only [List.find?_cons, List.find?_nil]
  by_cases h1 : MatchString rainyRegExp (ToLower photo.Weather) = true
  · have h1b := h1
    unfold MatchString rainyRegExp at h1b
    rw [if_pos h1, h1b]
    rfl
  · have h1b := h1
    unfold MatchString rainyRegExp at h1b
    rw [if_neg h1, Bool.eq_false_iff.mpr h1b]
    by_cases h2 : MatchString snowyRegExp (ToLower photo.Weather) = true
    · have h2b := h2
      unfold MatchString snowyRegExp at h2b
      rw [if_pos h2, h2b]
      rfl
    · have h2b := h2
      unfold MatchString snowyRegExp at h2b
      rw [if_neg h2, Bool.eq_false_iff.mpr h2b]
      by_cases h3 : MatchString stormyRegExp (ToLower photo.Weather) = true
      · have h3b := h3
        unfold MatchString stormyRegExp at h3b
        rw [if_pos h3, h3b]
        rfl
      · have h3b := h3
        unfold MatchString stormyRegExp at h3b
        rw [if_neg h3, Bool.eq_false_iff.mpr h3b]
        by_cases h4 : MatchString icyRegExp (ToLower photo.Weather) = true
        · have h4b := h4
          unfold MatchString icyRegExp at h4b
          rw [if_pos h4, h4b]
          rfl
        · have h4b := h4
          unfold MatchString icyRegExp at h4b
          rw [if_neg h4, Bool.eq_false_iff.mpr h4b]
          by_cases h5 : MatchString foggyRegExp (ToLower photo.Weather) = true
          · have h5b := h5
            unfold MatchString foggyRegExp at h5b
            rw [if_pos h5, h5b]
            rfl
          · have h5b := h5
            unfold MatchString foggyRegExp at h5b
            rw [if_neg h5, Bool.eq_false_iff.mpr h5b]
            rfl

/-- The bucket of a text is one of the six labels. -/
theorem moodBucket_mem (conditionText : String) : moodBucket conditionText ∈ moodLabels := by
  unfold moodBucket moodTable
  simp only [List.find?_cons, List.find?_nil]
  cases (["rain", "drizzle", "shower"].any fun keyword =>
    hasInfix keyword.data (ToLower conditionText).data)
  · cases (["snow"].any fun keyword => hasInfix keyword.data (ToLower conditionText).data)
    · cases (["storm", "thunder", "tornado"].any fun keyword =>
        hasInfix keyword.data (ToLower conditionText).data)
      · cases (["ice", "icy"].any fun keyword =>
          hasInfix keyword.data (ToLower conditionText).data)
        · cases (["mist", "overcast", "fog"].any fun keyword =>
            hasInfix keyword.data (ToLower conditionText).data)
          · simp [moodLabels]
          · simp [moodLabels]
        · simp [moodLabels]
      · simp [moodLabels]
    · simp [moodLabels]
  · simp [moodLabels]

theorem moodBucket_ne_icy (conditionText : String) : moodBucket conditionText ≠ "icy" := by
  intro h
  have hm := moodBucket_mem conditionText
  rw [h] at hm
  exact absurd hm (by decide)

/-- A state of the loop of `weatherConditions` in which `count` is at most the
running tally of `bucket`, and `m["icy"]` is 0: one more record of that bucket
makes it the leader and keeps the two facts. -/
theorem tally_uniform (st : MoodState) (bucket : String) (hicy : bucket ≠ "icy")
    (h0 : st.m "icy" = 0) (hle : st.count ≤ st.m bucket) :
    (tally st bucket (moodSource bucket)).weather = bucket
    ∧ (tally st bucket (moodSource bucket)).m "icy" = 0
    ∧ (tally st bucket (moodSource bucket)).count ≤ (tally st bucket (moodSource bucket)).m bucket := by
  have hm : incr st.m bucket bucket = st.m bucket + 1 := by simp [incr]
  have hi : incr st.m bucket "icy" = 0 := by
    have : ("icy" = bucket) = False := eq_false (fun h => hicy h.symm)
    simp [incr, this, h0]
  have hgt : incr st.m bucket bucket > st.count := by omega
  unfold tally
  simp only [if_pos hgt]
  refine ⟨trivial, hi, ?_⟩
  unfold moodSource
  split
  · omega
  · exact Nat.le_refl _

theorem weatherLoop_uniform (album : List Location) (bucket : String) (hicy : bucket ≠ "icy")
    (hsame : ∀ photo ∈ album, moodBucket photo.Weather = bucket) (st : MoodState)
    (h0 : st.m "icy" = 0) (hle : st.count ≤ st.m bucket) (hw : album = [] → st.weather = bucket) :
    (album.foldl weatherStep st).weather = bucket := by
  induction album generalizing st with
  | nil => exact hw rfl
  | cons photo rest ih =>
    rw [List.foldl_cons, weatherStep_eq_tally, hsame photo (List.mem_cons_self _ _)]
    obtain ⟨h1, h2, h3⟩ := tally_uniform st bucket hicy h0 hle
    exact ih (fun q hq => hsame q (List.mem_cons_of_mem _ hq)) _ h2 h3 (fun _ => h1)

/-- C11: on a non-empty album whose records all carry the same condition text,
`weatherConditions` returns the bucket of that text, whichever of the six
buckets it is. -/
theorem weatherConditions_uniform (album : List Location) (conditionText : String)
    (hne : album ≠ []) (hsame : ∀ photo ∈ album, photo.Weather = conditionText) :
    weatherConditions album = moodBucket conditionText := by
  unfold weatherConditions weatherLoop
  apply weatherLoop_uniform album (moodBucket conditionText) (moodBucket_ne_icy conditionText)
  · intro photo hphoto
    rw [hsame photo hphoto]
  · rfl
  · exact Nat.zero_le _
  · intro h
    exact absurd h hne

/-- Three records with the text "Ice" are "chilly"; two with "Light rain" are
"rainy"; two with "İCE", whose first letter is U+0130, are "chilly". -/
theorem weatherConditions_uniform_witness :
    weatherConditions [withWeather "Ice", withWeather "Ice", withWeather "Ice"] = "chilly"
    ∧ weatherConditions [withWeather "Light rain", withWeather "Light rain"] = "rainy"
    ∧ weatherConditions [withWeather "İCE", withWeather "İCE"] = "chilly" :=
  ⟨weatherConditions_uniform [withWeather "Ice", withWeather "Ice", withWeather "Ice"] "Ice"
      (by decide) (by decide),
   weatherConditions_uniform [withWeather "Light rain", withWeather "Light rain"] "Light rain"
      (by decide) (by decide),
   (weatherConditions_uniform [withWeather "İCE", withWeather "İCE"] "İCE"
      (by decide) (by decide)).trans (by rfl)⟩

/-! ## The title comes from the succeeding rows: claim C12 -/

theorem filter_cons_keep {α : Type} (p : α → Bool) (a : α) (l : List α) (h : p a = true) :
    (a :: l).filter p = a :: l.filter p := List.filter_cons_of_pos h

theorem filter_cons_drop {α : Type} (p : α → Bool) (a : α) (l : List α) (h : ¬ p a = true) :
    (a :: l).filter p = l.filter p := List.filter_cons_of_neg h

theorem filterMap_cons_skip {α β : Type} (f : α → Option β) (a : α) (l : List α)
    (h : f a = none) : (a :: l).filterMap f = l.filterMap f := List.filterMap_cons_none h

theorem filterMap_cons_take {α β : Type} (f : α → Option β) (a : α) (l : List α) (b : β)
    (h : f a = some b) : (a :: l).filterMap f = b :: l.filterMap f := List.filterMap_cons_some h

theorem enrichedRecords_succeedingRows {F : Type} (parseFloat : String → Except GoError F)
    (locator : Locator F) (weatherman : Weatherman F) (data : List (List String)) :
    enrichedRecords parseFloat locator weatherman (succeedingRows parseFloat locator weatherman data)
      = enrichedRecords parseFloat locator weatherman data := by
  induction data with
  | nil => rfl
  | cons row rest ih =>
    unfold succeedingRows enrichedRecords at ih ⊢
    cases h : enrich parseFloat locator weatherman row with
    | ok v =>
      have hk : (!failsRow parseFloat locator weatherman row) = true := by
        simp [failsRow, h, Outcome.failure?]
      have hr : (enrich parseFloat locator weatherman row).record? = some v := by rw [h]; rfl
      rw [filter_cons_keep (fun row => !failsRow parseFloat locator weatherman row) row rest hk,
        filterMap_cons_take (fun row => (enrich parseFloat locator weatherman row).record?)
          row _ v hr,
        filterMap_cons_take (fun row => (enrich parseFloat locator weatherman row).record?)
          row _ v hr, ih]
    | error err =>
      have hk : ¬ (!failsRow parseFloat locator weatherman row) = true := by
        simp [failsRow, h, Outcome.failure?]
      have hr : (enrich parseFloat locator weatherman row).record? = none := by rw [h]; rfl
      rw [filter_cons_drop (fun row => !failsRow parseFloat locator weatherman row) row rest hk,
        filterMap_cons_skip (fun row => (enrich parseFloat locator weatherman row).record?)
          row _ hr, ih]
    | panic =>
      have hk : (!failsRow parseFloat locator weatherman row) = true := by
        simp [failsRow, h, Outcome.failure?]
      have hr : (enrich parseFloat locator weatherman row).record? = none := by rw [h]; rfl
      rw [filter_cons_keep (fun row => !failsRow parseFloat locator weatherman row) row rest hk,
        filterMap_cons_skip (fun row => (enrich parseFloat locator weatherman row).record?)
          row _ hr,
        filterMap_cons_skip (fun row => (enrich parseFloat locator weatherman row).record?)
          row _ hr, ih]

theorem rowErrors_succeedingRows {F : Type} (parseFloat : String → Except GoError F)
    (locator : Locator F) (weatherman : Weatherman F) (data : List (List String)) :
    rowErrors parseFloat locator weatherman (succeedingRows parseFloat locator weatherman data)
      = [] := by
  unfold rowErrors succeedingRows
  rw [List.filterMap_eq_nil_iff]
  intro row hrow
  have hk := (List.mem_filter.mp hrow).2
  cases h : (enrich parseFloat locator weatherman row).failure? with
  | none => rfl
  | some err => simp [failsRow, h] at hk

theorem any_panics_succeedingRows {F : Type} (parseFloat : String → Except GoError F)
    (locator : Locator F) (weatherman : Weatherman F) (data : List (List String))
    (hsafe : data.any (fun row => (enrich parseFloat locator weatherman row).panics) = false) :
    (succeedingRows parseFloat locator weatherman data).any
      (fun row => (enrich parseFloat locator weatherman row).panics) = false := by
  rw [List.any_eq_false] at hsafe ⊢
  intro row hrow
  exact hsafe row (List.mem_filter.mp hrow).1

theorem length_rowErrors {F : Type} (parseFloat : String → Except GoError F)
    (locator : Locator F) (weatherman : Weatherman F) (data : List (List String)) :
    (rowErrors parseFloat locator weatherman data).length
      = (data.filter (failsRow parseFloat locator weatherman)).length := by
  induction data with
  | nil => rfl
  | cons row rest ih =>
    unfold rowErrors at ih ⊢
    cases h : (enrich parseFloat locator weatherman row).failure? with
    | none =>
      have hk : ¬ failsRow parseFloat locator weatherman row = true := by simp [failsRow, h]
      rw [filterMap_cons_skip (fun row => (enrich parseFloat locator weatherman row).failure?)
          row _ h,
        filter_cons_drop (failsRow parseFloat locator weatherman) row rest hk, ih]
    | some err =>
      have hk : failsRow parseFloat locator weatherman row = true := by simp [failsRow, h]
      rw [filterMap_cons_take (fun row => (enrich parseFloat locator weatherman row).failure?)
          row _ err h,
        filter_cons_keep (failsRow parseFloat locator weatherman) row rest hk, List.length_cons,
        List.length_cons, ih]

/-- C12: every outcome that `Process` returns has the title that `Process`
returns on the input with all failing rows removed (with no error there), and
as many errors as there are failing rows; `Process` does return on rows that
have no field or at least three fields. -/
theorem Process_only_successful_rows {F : Type} (parseFloat : String → Except GoError F)
    (locator : Locator F) (weatherman : Weatherman F) (data : List (List String)) :
    (∀ out, Process parseFloat locator weatherman data = some out →
      Process parseFloat locator weatherman (succeedingRows parseFloat locator weatherman data)
          = some (out.1, [])
      ∧ out.2.length = (data.filter (failsRow parseFloat locator weatherman)).length)
    ∧ ((∀ row ∈ data, row.length = 0 ∨ 3 ≤ row.length) →
      ∃ out, Process parseFloat locator weatherman data = some out) := by
  refine ⟨?_, ?_⟩
  · intro out hout
    rw [Process_eq] at hout
    by_cases hp : data.any (fun row => (enrich parseFloat locator weatherman row).panics) = true
    · rw [if_pos hp] at hout
      cases hout
    · rw [if_neg hp] at hout
      have hsafe := Bool.eq_false_iff.mpr hp
      have hsafe2 := any_panics_succeedingRows parseFloat locator weatherman data hsafe
      rw [Process_eq, hsafe2, enrichedRecords_succeedingRows, rowErrors_succeedingRows]
      simp only [Bool.false_eq_true, if_false]
      by_cases hlen : (enrichedRecords parseFloat locator weatherman data).length = 0
      · rw [if_pos hlen] at hout ⊢
        cases hout
        exact ⟨rfl, length_rowErrors parseFloat locator weatherman data⟩
      · rw [if_neg hlen] at hout ⊢
        cases hout
        exact ⟨rfl, length_rowErrors parseFloat locator weatherman data⟩
  · intro hwf
    rw [Process_eq, any_panics_false parseFloat locator weatherman data hwf]
    by_cases hlen : (enrichedRecords parseFloat locator weatherman data).length = 0
    · exact ⟨_, by simp only [Bool.false_eq_true, if_false, if_pos hlen]; rfl⟩
    · exact ⟨_, by simp only [Bool.false_eq_true, if_false, if_neg hlen]; rfl⟩

/-- The test `invalid data`: the row with the malformed timestamp gives one
error, and the title "A rainy day in New York" is the title of the valid row alone. -/
theorem Process_only_successful_rows_witness :
    Process decimalLiteral newYorkLocator rainyWeatherman invalidDataRows
      = some ("A rainy day in New York",
          [.wrapError "invalid photo: "
            (.wrapError "invalid date: " (.parseError layout "2020-03-30 14:12:19Z"))])
    ∧ succeedingRows decimalLiteral newYorkLocator rainyWeatherman invalidDataRows
      = [["2020-03-29T14:20:10Z", "40.728656", "-73.998790"]]
    ∧ Process decimalLiteral newYorkLocator rainyWeatherman
        (succeedingRows decimalLiteral newYorkLocator rainyWeatherman invalidDataRows)
      = some ("A rainy day in New York", []) :=
  ⟨by rfl, by rfl,
   ((Process_only_successful_rows decimalLiteral newYorkLocator rainyWeatherman
      invalidDataRows).1 _ (by rfl)).1⟩

/-! ## The timestamps that parse: claim C13 -/

theorem digit?_some (c : Char) (n : Nat) (h : digit? c = some n) : c.isDigit = true := by
  unfold digit? at h
  by_cases hd : c.isDigit = true
  · exact hd
  · rw [if_neg hd] at h
    cases h

theorem getyear_some (cs v : List Char) (y : Nat) (h : getyear cs = some (y, v)) :
    ∃ a b c d, cs = a :: b :: c :: d :: v
      ∧ a.isDigit = true ∧ b.isDigit = true ∧ c.isDigit = true ∧ d.isDigit = true := by
  match cs with
  | [] => cases h
  | [_] => cases h
  | [_, _] => cases h
  | [_, _, _] => cases h
  | a :: b :: c :: d :: rest =>
    unfold getyear at h
    cases ha : digit? a with
    | none => simp [ha] at h
    | some na =>
      cases hb : digit? b with
      | none => simp [ha, hb] at h
      | some nb =>
        cases hc : digit? c with
        | none => simp [ha, hb, hc] at h
        | some nc =>
          cases hd : digit? d with
          | none => simp [ha, hb, hc, hd] at h
          | some nd =>
            simp only [ha, hb, hc, hd, Option.some.injEq, Prod.mk.injEq] at h
            refine ⟨a, b, c, d, by rw [h.2], digit?_some a na ha, digit?_some b nb hb,
              digit?_some c nc hc, digit?_some d nd hd⟩

theorem skipChar_some (lit : Char) (cs v : List Char) (h : skipChar lit cs = some v) :
    cs = lit :: v := by
  match cs with
  | [] => cases h
  | c :: rest =>
    simp only [skipChar] at h
    by_cases hc : c = lit
    · rw [if_pos hc] at h
      cases h
      rw [hc]
    · rw [if_neg hc] at h
      cases h

theorem getnum_some (fixed : Bool) (cs v : List Char) (n : Nat)
    (h : getnum fixed cs = some (n, v)) :
    (∃ a b, cs = a :: b :: v ∧ a.isDigit = true ∧ b.isDigit = true)
    ∨ (fixed = false ∧ ∃ a, cs = a :: v ∧ a.isDigit = true
        ∧ ∀ b w, v = b :: w → b.isDigit = false) := by
  match cs with
  | [] => cases h
  | a :: rest =>
    unfold getnum at h
    cases ha : digit? a with
    | none => simp [ha] at h
    | some na =>
      simp only [ha] at h
      match rest with
      | [] =>
        cases fixed with
        | true => simp at h
        | false =>
          simp only [Bool.false_eq_true, if_false, Option.some.injEq, Prod.mk.injEq] at h
          right
          refine ⟨rfl, a, by rw [← h.2], digit?_some a na ha, ?_⟩
          intro b w hv
          rw [← h.2] at hv
          cases hv
      | b :: rest2 =>
        cases hb : digit? b with
        | none =>
          simp only [hb] at h
          cases fixed with
          | true => simp at h
          | false =>
            simp only [Bool.false_eq_true, if_false, Option.some.injEq, Prod.mk.injEq] at h
            right
            refine ⟨rfl, a, by rw [← h.2], digit?_some a na ha, ?_⟩
            intro b2 w hv
            rw [← h.2] at hv
            cases hv
            unfold digit? at hb
            by_cases hd : b.isDigit = true
            · rw [if_pos hd] at hb
              cases hb
            · exact Bool.eq_false_iff.mpr hd
        | some nb =>
          simp only [hb, Option.some.injEq, Prod.mk.injEq] at h
          left
          exact ⟨a, b, by rw [h.2], digit?_some a na ha, digit?_some b nb hb⟩

theorem spanDigits_snd (cs : List Char) : (spanDigits cs).2 = cs.dropWhile Char.isDigit := by
  induction cs with
  | nil => rfl
  | cons c rest ih =>
    unfold spanDigits digit?
    by_cases hd : c.isDigit = true
    · simp only [if_pos hd, List.dropWhile_cons_of_pos hd]
      exact ih
    · simp only [if_neg hd, List.dropWhile_cons_of_neg hd]

theorem getfrac_zone (cs : List Char) (h : skipChar 'Z' (getfrac cs).2 = some []) :
    isZoneTail cs = true := by
  have hz := skipChar_some 'Z' _ _ h
  match cs with
  | [] => simp [getfrac] at hz
  | [c] =>
    simp only [getfrac] at hz
    rw [hz]
    rfl
  | sep :: d :: rest =>
    simp only [getfrac] at hz
    by_cases hc : ((sep = '.' || sep = ',') && d.isDigit) = true
    · rw [if_pos hc] at hz
      simp only at hz
      rw [spanDigits_snd] at hz
      have hd : d.isDigit = true := by
        simp only [Bool.and_eq_true] at hc
        exact hc.2
      rw [List.dropWhile_cons_of_pos hd] at hz
      have hne : (sep :: d :: rest) ≠ ['Z'] := by simp
      unfold isZoneTail
      split
      · rename_i heq
        exact absurd heq hne
      · rename_i heq
        cases heq
        simp only [Bool.and_eq_true] at hc ⊢
        exact ⟨hc, by rw [hz]; rfl⟩
      · rename_i hno
        exact absurd rfl (hno _ _ _)
    · rw [if_neg hc] at hz
      simp only at hz
      cases hz

theorem isClock_of_getnum (cs v6 v7 v8 v9 v10 : List Char) (hour min sec : Nat)
    (h6 : getnum false cs = some (hour, v6)) (h7 : skipChar ':' v6 = some v7)
    (h8 : getnum true v7 = some (min, v8)) (h9 : skipChar ':' v8 = some v9)
    (h10 : getnum true v9 = some (sec, v10)) (hz : isZoneTail v10 = true) :
    isClock cs = true := by
  have e7 := skipChar_some ':' v6 v7 h7
  have e9 := skipChar_some ':' v8 v9 h9
  have hms : isMinutesSeconds v6 = true := by
    rcases getnum_some true v7 v8 min h8 with ⟨n1, n2, e8, hn1, hn2⟩ | ⟨hf, _⟩
    · rcases getnum_some true v9 v10 sec h10 with ⟨s1, s2, e10, hs1, hs2⟩ | ⟨hf, _⟩
      · rw [e7, e8, e9, e10]
        simp [isMinutesSeconds, hn1, hn2, hs1, hs2, hz]
      · cases hf
    · cases hf
  rcases getnum_some false cs v6 hour h6 with ⟨a, b, e6, ha, hb⟩ | ⟨_, a, e6, ha, _⟩
  · rw [e6]
    unfold isClock
    split
    · rename_i heq
      simp only [List.cons.injEq] at heq
      rw [heq.2.1] at hb
      exact absurd hb (by decide)
    · rename_i heq
      simp only [List.cons.injEq] at heq
      obtain ⟨rfl, rfl, rfl⟩ := heq
      simp [ha, hb, hms]
    · rename_i hno
      exact absurd rfl (hno a b v6)
  · rw [e6, e7]
    rw [e7] at hms
    simp [isClock, ha, hms]

/-- A timestamp that `timeParse` reads has the shape `isTimestampShape`. -/
theorem timeParse_ok_shape (value : String) (t : Int) (h : timeParse value = .ok t) :
    isTimestampShape value = true := by
  unfold timeParse at h
  simp only [] at h
  split at h
  · rename_i t2 hp
    simp only [Option.bind_eq_bind, Option.bind_eq_some] at hp
    obtain ⟨⟨year, v1⟩, h1, v2, h2, ⟨month, v3⟩, h3, v4, h4, ⟨day, v5⟩, h5, v6, h6,
      ⟨hour, v7⟩, h7, v8, h8, ⟨min, v9⟩, h9, v10, h10, ⟨sec, v11⟩, h11, v12, h12, hif⟩ := hp
    simp only at h2 h4 h6 h8 h10 h12 hif
    have hempty : v12 = [] := by
      by_cases hc : v12.isEmpty = true
      · exact List.isEmpty_iff.mp hc
      · simp [hc] at hif
    rw [hempty] at h12
    have hz := getfrac_zone v11 h12
    have hclock := isClock_of_getnum v6 v7 v8 v9 v10 v11 hour min sec h7 h8 h9 h10 h11 hz
    obtain ⟨y1, y2, y3, y4, e1, hy1, hy2, hy3, hy4⟩ := getyear_some _ _ _ h1
    have e2 := skipChar_some '-' v1 v2 h2
    have e4 := skipChar_some '-' v3 v4 h4
    have e6 := skipChar_some 'T' v5 v6 h6
    rcases getnum_some true v2 v3 month h3 with ⟨m1, m2, e3, hm1, hm2⟩ | ⟨hf, _⟩
    · rcases getnum_some true v4 v5 day h5 with ⟨d1, d2, e5, hd1, hd2⟩ | ⟨hf, _⟩
      · unfold isTimestampShape
        rw [e1, e2, e3, e4, e5, e6]
        simp [hy1, hy2, hy3, hy4, hm1, hm2, hd1, hd2, hclock]
      · cases hf
    · cases hf
  · cases h

/-- A timestamp that has not the shape is rejected by `timeParse`. -/
theorem timeParse_error_of_shape (value : String) (h : isTimestampShape value = false) :
    timeParse value = .error (.parseError layout value) := by
  cases hp : timeParse value with
  | ok t =>
    rw [timeParse_ok_shape value t hp] at h
    cases h
  | error err =>
    unfold timeParse at hp
    simp only [] at hp
    split at hp
    · cases hp
    · cases hp
      rfl

/-- C13 (counterexample): the timestamp "2020-03-30T14:12:19.5Z" has a
fractional-seconds part and is not of the form YYYY-MM-DDTHH:MM:SSZ, yet
`time.Parse` reads it: `mapDataRowToStruct` succeeds and the row is enriched. -/
theorem mapDataRowToStruct_fractional_second :
    isStrictTimestamp "2020-03-30T14:12:19.5Z" = false
    ∧ timeParse "2020-03-30T14:12:19.5Z" = .ok (Date 2020 3 30 14 12 19 500000000)
    ∧ (∃ metadata, mapDataRowToStruct decimalLiteral
        ["2020-03-30T14:12:19.5Z", "40.728808", "-73.996106"] = .ok metadata)
    ∧ (enrich decimalLiteral newYorkLocator rainyWeatherman
        ["2020-03-30T14:12:19.5Z", "40.728808", "-73.996106"]).record?
      = some { City := "New York", Country := "USA",
               Date := Date 2020 3 30 14 12 19 500000000, Weather := "Rain" }
    ∧ Process decimalLiteral newYorkLocator rainyWeatherman
        [["2020-03-30T14:12:19.5Z", "40.728808", "-73.996106"]]
      = some ("A rainy day in New York", []) :=
  ⟨by rfl, by rfl, ⟨_, rfl⟩, by rfl, by rfl⟩

/-- C13 (amended): a non-empty row whose timestamp field has not the shape
`YYYY-MM-DDTH:MM:SSZ` (four-digit year, two-digit month and day, an hour of one
or two digits, two-digit minute and second, then possibly a period or a comma
with one or more digits) makes `mapDataRowToStruct` fail with the parse error
of the timestamp: the row gives an entry of the error list and no record. -/
theorem mapDataRowToStruct_rejects_timestamp {F : Type}
    (parseFloat : String → Except GoError F) (locator : Locator F) (weatherman : Weatherman F)
    (field : String) (rest : List String) (hshape : isTimestampShape field = false) :
    mapDataRowToStruct parseFloat (field :: rest)
      = .error (.wrapError "invalid date: " (.parseError layout field))
    ∧ enrich parseFloat locator weatherman (field :: rest)
      = .error (.wrapError "invalid photo: "
          (.wrapError "invalid date: " (.parseError layout field)))
    ∧ (enrich parseFloat locator weatherman (field :: rest)).record? = none := by
  have hparse := timeParse_error_of_shape field hshape
  have hmap : mapDataRowToStruct parseFloat (field :: rest)
      = .error (.wrapError "invalid date: " (.parseError layout field)) := by
    unfold mapDataRowToStruct
    simp [hparse]
  have hen : enrich parseFloat locator weatherman (field :: rest)
      = .error (.wrapError "invalid photo: "
          (.wrapError "invalid date: " (.parseError layout field))) := by
    unfold enrich
    rw [hmap]
  exact ⟨hmap, hen, by rw [hen]; rfl⟩

/-- The row of the test `invalid data` whose timestamp has a blank for the `T`. -/
theorem mapDataRowToStruct_rejects_timestamp_witness :
    isTimestampShape "2020-03-30 14:12:19Z" = false
    ∧ (enrich decimalLiteral newYorkLocator rainyWeatherman
        ["2020-03-30 14:12:19Z", "40.728808", "-73.996106"]).record? = none :=
  ⟨by rfl,
   (mapDataRowToStruct_rejects_timestamp decimalLiteral newYorkLocator rainyWeatherman
      "2020-03-30 14:12:19Z" ["40.728808", "-73.996106"] (by rfl)).2.2⟩

/-! ## Rows with rejected coordinates: claim C14 -/

/-- C14 (counterexample): the latitude field "NaN" is not a decimal number, and
`strconv.ParseFloat` reads it as the special value: `mapDataRowToStruct` succeeds
on the row, which is enriched and gives the title. -/
theorem mapDataRowToStruct_reads_NaN :
    decimalOrSpecial "NaN" = .ok "NaN"
    ∧ decimalLiteral "NaN" = .error (.numError "ParseFloat" "NaN" "invalid syntax")
    ∧ (∃ metadata, mapDataRowToStruct decimalOrSpecial
        ["2020-03-29T14:20:10Z", "NaN", "-73.998790"] = .ok metadata)
    ∧ Process decimalOrSpecial newYorkLocator rainyWeatherman
        [["2020-03-29T14:20:10Z", "NaN", "-73.998790"]]
      = some ("A rainy day in New York", []) :=
  ⟨by rfl, by rfl, ⟨_, rfl⟩, by rfl⟩

theorem mapDataRowToStruct_rejected {F : Type} (parseFloat : String → Except GoError F)
    (row : List String) (hrow : RejectedCoordinates parseFloat row) :
    ∃ err, mapDataRowToStruct parseFloat row = .error err := by
  unfold mapDataRowToStruct
  rcases hrow with rfl | ⟨lat, err, hlat, hrej⟩ | ⟨lon, err, hlon, hrej⟩
  · exact ⟨_, rfl⟩
  · match row, hlat with
    | a :: b :: rest, hlat =>
      simp only [List.getElem?_cons_succ, List.getElem?_cons_zero, Option.some.injEq] at hlat
      subst hlat
      simp only [List.length_cons, List.getElem?_cons_zero, List.getElem?_cons_succ]
      rw [if_neg (by omega)]
      cases timeParse a with
      | error e => exact ⟨_, rfl⟩
      | ok date =>
        simp only [hrej]
        exact ⟨_, rfl⟩
  · match row, hlon with
    | a :: b :: c :: rest, hlon =>
      simp only [List.getElem?_cons_succ, List.getElem?_cons_zero, Option.some.injEq] at hlon
      subst hlon
      simp only [List.length_cons, List.getElem?_cons_zero, List.getElem?_cons_succ]
      rw [if_neg (by omega)]
      cases timeParse a with
      | error e => exact ⟨_, rfl⟩
      | ok date =>
        simp only
        cases parseFloat b with
        | error e => exact ⟨_, rfl⟩
        | ok latitude =>
          simp only [hrej]
          exact ⟨_, rfl⟩

/-- C14 (amended): a row that is empty, or whose latitude field or longitude
field is rejected by the float parser, makes `mapDataRowToStruct` fail: it gives
one entry of the error list (the wrapped error) and no record; when every row
is of this kind `Process` returns the empty title with one error for each row. -/
theorem Process_rejected_coordinates {F : Type} (parseFloat : String → Except GoError F)
    (locator : Locator F) (weatherman : Weatherman F) (data : List (List String))
    (hkind : ∀ row ∈ data, RejectedCoordinates parseFloat row) :
    (∀ row ∈ data, ∃ err, mapDataRowToStruct parseFloat row = .error err
      ∧ enrich parseFloat locator weatherman row = .error (.wrapError "invalid photo: " err))
    ∧ enrichedRecords parseFloat locator weatherman data = []
    ∧ ∃ errs, Process parseFloat locator weatherman data = some ("", errs)
        ∧ errs = rowErrors parseFloat locator weatherman data
        ∧ errs.length = data.length := by
  have hrows : ∀ row ∈ data, ∃ err, mapDataRowToStruct parseFloat row = .error err
      ∧ enrich parseFloat locator weatherman row = .error (.wrapError "invalid photo: " err) := by
    intro row hrow
    obtain ⟨err, herr⟩ := mapDataRowToStruct_rejected parseFloat row (hkind row hrow)
    refine ⟨err, herr, ?_⟩
    unfold enrich
    rw [herr]
  have hnil : enrichedRecords parseFloat locator weatherman data = [] := by
    unfold enrichedRecords
    rw [List.filterMap_eq_nil_iff]
    intro row hrow
    obtain ⟨err, _, hen⟩ := hrows row hrow
    rw [hen]
    rfl
  have hsafe : data.any (fun row => (enrich parseFloat locator weatherman row).panics) = false := by
    rw [List.any_eq_false]
    intro row hrow
    obtain ⟨err, _, hen⟩ := hrows row hrow
    rw [hen]
    simp [Outcome.panics]
  have hsum := length_rowErrors_add parseFloat locator weatherman data hsafe
  refine ⟨hrows, hnil, rowErrors parseFloat locator weatherman data, ?_, rfl, ?_⟩
  · rw [Process_eq, hsafe, hnil]
    rfl
  · rw [hnil] at hsum
    simpa using hsum

/-- The test `coordinates fail`: "what" is rejected in both rows; the title is
empty and there are two errors. -/
theorem Process_rejected_coordinates_witness :
    Process decimalLiteral newYorkLocator rainyWeatherman coordinatesFailRows
      = some ("", [.wrapError "invalid photo: " (.numError "ParseFloat" "what" "invalid syntax"),
                   .wrapError "invalid photo: " (.numError "ParseFloat" "what" "invalid syntax")])
    ∧ enrichedRecords decimalLiteral newYorkLocator rainyWeatherman coordinatesFailRows = [] :=
  ⟨by rfl,
   (Process_rejected_coordinates decimalLiteral newYorkLocator rainyWeatherman
      coordinatesFailRows
      (by
        intro row hrow
        simp only [coordinatesFailRows, List.mem_cons, List.mem_singleton, List.not_mem_nil,
          or_false] at hrow
        rcases hrow with rfl | rfl
        · exact Or.inr (Or.inl ⟨"what", _, rfl, rfl⟩)
        · exact Or.inr (Or.inr ⟨"what", _, rfl, rfl⟩))).2.1⟩

/-! ## The entries of the error list: claims C15 and C16 -/

/-- C15 (counterexample): in the test `locator/weatherman fails` the first row
fails at the place resolver and the second at the weather resolver, both with
the error "argh", and the two entries of the error list are the same value:
nothing in an entry names the resolver. -/
theorem resolver_entries_identical :
    Process decimalLiteral firstRowFailingLocator failingWeatherman resolverFailRows
      = some ("", [.wrapError "invalid photo: " (.errorString "argh"),
                   .wrapError "invalid photo: " (.errorString "argh")])
    ∧ firstRowFailingLocator "40.728808" "-73.996106" = .error (.errorString "argh")
    ∧ (∃ place, firstRowFailingLocator "40.728656" "-73.998790" = .ok place)
    ∧ (enrich decimalLiteral firstRowFailingLocator failingWeatherman
        ["2020-03-30T14:12:19Z", "40.728808", "-73.996106"]).failure?
      = (enrich decimalLiteral firstRowFailingLocator failingWeatherman
        ["2020-03-29T14:20:10Z", "40.728656", "-73.998790"]).failure? :=
  ⟨by rfl, by rfl, ⟨_, rfl⟩, by rfl⟩

/-- C15 (amended): for a row that parses, the entry recorded when the place
resolver fails, and the entry recorded when the place resolver answers and the
weather resolver fails, are both the resolver's error wrapped with the prefix
"invalid photo: "; `errors.Unwrap` gives the resolver's error back, and the
entry does not depend on which resolver failed. -/
theorem enrich_resolver_error {F : Type} (parseFloat : String → Except GoError F)
    (locator : Locator F) (weatherman : Weatherman F) (row : List String) (metadata : Metadata F)
    (hparse : mapDataRowToStruct parseFloat row = .ok metadata) (err : GoError) :
    (locator metadata.latitude metadata.longitude = .error err →
      enrich parseFloat locator weatherman row = .error (.wrapError "invalid photo: " err))
    ∧ (∀ place, locator metadata.latitude metadata.longitude = .ok place →
        weatherman metadata.latitude metadata.longitude metadata.date = .error err →
        enrich parseFloat locator weatherman row = .error (.wrapError "invalid photo: " err))
    ∧ (GoError.wrapError "invalid photo: " err).Unwrap = some err := by
  refine ⟨?_, ?_, rfl⟩
  · intro hloc
    unfold enrich
    rw [hparse]
    simp only [hloc]
  · intro place hloc hwm
    unfold enrich
    rw [hparse]
    simp only [hloc, hwm]

/-- The second row of the test `locator/weatherman fails`: the place resolver
answers, the weather resolver fails with "argh". -/
theorem enrich_resolver_error_witness :
    enrich decimalLiteral firstRowFailingLocator failingWeatherman
        ["2020-03-29T14:20:10Z", "40.728656", "-73.998790"]
      = .error (.wrapError "invalid photo: " (.errorString "argh")) :=
  (enrich_resolver_error decimalLiteral firstRowFailingLocator failingWeatherman
    ["2020-03-29T14:20:10Z", "40.728656", "-73.998790"]
    { latitude := "40.728656", longitude := "-73.998790", date := Date 2020 3 29 14 20 10 0 }
    (by rfl) (.errorString "argh")).2.1 _ (by rfl) (by rfl)

/-- The entry of a failing row is its underlying error with the fixed prefix. -/
theorem failure?_eq_underlyingError {F : Type} (parseFloat : String → Except GoError F)
    (locator : Locator F) (weatherman : Weatherman F) (row : List String) :
    (enrich parseFloat locator weatherman row).failure?
      = (underlyingError parseFloat locator weatherman row).map (.wrapError "invalid photo: ") := by
  unfold enrich underlyingError
  cases mapDataRowToStruct parseFloat row with
  | panic => rfl
  | error err => rfl
  | ok metadata =>
    simp only
    cases locator metadata.latitude metadata.longitude with
    | error err => rfl
    | ok photoMetadata =>
      simp only
      cases weatherman metadata.latitude metadata.longitude metadata.date <;> rfl

/-- C16 (counterexample): two rows at different positions with different
contents, both failing at the place resolver with the error "argh", give two
identical entries of the error list. -/
theorem row_entries_identical :
    (["2020-03-30T14:12:19Z", "40.728808", "-73.996106"] : List String)
      ≠ ["2020-03-29T14:20:10Z", "40.728656", "-73.998790"]
    ∧ (∃ errs, Process decimalLiteral failingLocator rainyWeatherman resolverFailRows
          = some ("", errs)
        ∧ errs.length = 2 ∧ errs[0]? = errs[1]?)
    ∧ (enrich decimalLiteral failingLocator rainyWeatherman
        ["2020-03-30T14:12:19Z", "40.728808", "-73.996106"]).failure?
      = some (.wrapError "invalid photo: " (.errorString "argh"))
    ∧ (enrich decimalLiteral failingLocator rainyWeatherman
        ["2020-03-29T14:20:10Z", "40.728656", "-73.998790"]).failure?
      = some (.wrapError "invalid photo: " (.errorString "argh")) :=
  ⟨by decide, ⟨_, rfl, rfl, rfl⟩, by rfl, by rfl⟩

/-- C16 (amended): every entry of the error list that `Process` returns is the
underlying error of a failing row of the input wrapped with the fixed prefix
"invalid photo: ", the entries standing in the order of their rows; an entry
holds nothing else of its row, so two rows with the same underlying error give
identical entries. -/
theorem Process_error_entries {F : Type} (parseFloat : String → Except GoError F)
    (locator : Locator F) (weatherman : Weatherman F) (data : List (List String)) :
    (∀ out, Process parseFloat locator weatherman data = some out →
      out.2 = data.filterMap (fun row =>
          (underlyingError parseFloat locator weatherman row).map (.wrapError "invalid photo: "))
      ∧ ∀ entry ∈ out.2, ∃ row ∈ data, ∃ err,
          underlyingError parseFloat locator weatherman row = some err
          ∧ entry = .wrapError "invalid photo: " err)
    ∧ (∀ row1 row2 : List String,
        underlyingError parseFloat locator weatherman row1
          = underlyingError parseFloat locator weatherman row2 →
        (enrich parseFloat locator weatherman row1).failure?
          = (enrich parseFloat locator weatherman row2).failure?) := by
  refine ⟨?_, ?_⟩
  · intro out hout
    have herrs : out.2 = rowErrors parseFloat locator weatherman data := by
      rw [Process_eq] at hout
      by_cases hp : data.any (fun row => (enrich parseFloat locator weatherman row).panics) = true
      · rw [if_pos hp] at hout
        cases hout
      · rw [if_neg hp] at hout
        by_cases hlen : (enrichedRecords parseFloat locator weatherman data).length = 0
        · rw [if_pos hlen] at hout
          cases hout
          rfl
        · rw [if_neg hlen] at hout
          cases hout
          rfl
    have hform : rowErrors parseFloat locator weatherman data = data.filterMap (fun row =>
        (underlyingError parseFloat locator weatherman row).map (.wrapError "invalid photo: ")) := by
      unfold rowErrors
      congr 1
      funext row
      exact failure?_eq_underlyingError parseFloat locator weatherman row
    rw [herrs, hform]
    refine ⟨rfl, ?_⟩
    intro entry hentry
    obtain ⟨row, hrow, hmap⟩ := List.mem_filterMap.mp hentry
    cases hu : underlyingError parseFloat locator weatherman row with
    | none => rw [hu] at hmap; cases hmap
    | some err =>
      rw [hu] at hmap
      simp only [Option.map_some', Option.some.injEq] at hmap
      exact ⟨row, hrow, err, hu, hmap.symm⟩
  · intro row1 row2 heq
    rw [failure?_eq_underlyingError, failure?_eq_underlyingError, heq]

/-- The test `invalid data`: the one entry is the wrapped parse error of the
first row, which holds the text of the timestamp and no position. -/
theorem Process_error_entries_witness :
    ∃ row ∈ invalidDataRows, ∃ err,
      underlyingError decimalLiteral newYorkLocator rainyWeatherman row = some err
      ∧ GoError.wrapError "invalid photo: "
          (.wrapError "invalid date: " (.parseError layout "2020-03-30 14:12:19Z"))
        = .wrapError "invalid photo: " err :=
  ((Process_error_entries decimalLiteral newYorkLocator rainyWeatherman invalidDataRows).1
    ("A rainy day in New York",
      [.wrapError "invalid photo: "
        (.wrapError "invalid date: " (.parseError layout "2020-03-30 14:12:19Z"))])
    (by rfl)).2 _ (List.mem_singleton.mpr rfl)

/-! ## The fields of the place resolver's answer: claim C17 -/

/-- Two place resolvers whose answers differ in `Date` and `Weather` only
enrich every row alike. -/
theorem enrich_congr_placeOf {F : Type} (parseFloat : String → Except GoError F)
    (locator1 locator2 : Locator F) (weatherman : Weatherman F)
    (hsame : ∀ latitude longitude,
      placeOf (locator1 latitude longitude) = placeOf (locator2 latitude longitude))
    (row : List String) :
    enrich parseFloat locator1 weatherman row = enrich parseFloat locator2 weatherman row := by
  unfold enrich
  cases mapDataRowToStruct parseFloat row with
  | panic => rfl
  | error err => rfl
  | ok metadata =>
    simp only
    have h := hsame metadata.latitude metadata.longitude
    cases h1 : locator1 metadata.latitude metadata.longitude with
    | error e1 =>
      cases h2 : locator2 metadata.latitude metadata.longitude with
      | error e2 =>
        rw [h1, h2] at h
        simp only [placeOf, Except.error.injEq] at h
        rw [h]
      | ok p2 =>
        rw [h1, h2] at h
        simp [placeOf] at h
    | ok p1 =>
      cases h2 : locator2 metadata.latitude metadata.longitude with
      | error e2 =>
        rw [h1, h2] at h
        simp [placeOf] at h
      | ok p2 =>
        rw [h1, h2] at h
        simp only [placeOf, Except.ok.injEq, Prod.mk.injEq] at h
        simp only
        cases weatherman metadata.latitude metadata.longitude metadata.date with
        | error err => rfl
        | ok weatherCondition =>
          simp only [h.1, h.2]

/-- The outcome of `Process` is a function of what each row contributes. -/
theorem Process_congr_enrich {F : Type} (parseFloat1 parseFloat2 : String → Except GoError F)
    (locator1 locator2 : Locator F) (weatherman1 weatherman2 : Weatherman F)
    (data : List (List String))
    (hrows : ∀ row ∈ data, enrich parseFloat1 locator1 weatherman1 row
      = enrich parseFloat2 locator2 weatherman2 row) :
    Process parseFloat1 locator1 weatherman1 data
      = Process parseFloat2 locator2 weatherman2 data := by
  have hp : data.any (fun row => (enrich parseFloat1 locator1 weatherman1 row).panics)
      = data.any (fun row => (enrich parseFloat2 locator2 weatherman2 row).panics) := by
    induction data with
    | nil => rfl
    | cons row rest ih =>
      rw [List.any_cons, List.any_cons, hrows row (List.mem_cons_self _ _),
        ih (fun r hr => hrows r (List.mem_cons_of_mem _ hr))]
  have hr : enrichedRecords parseFloat1 locator1 weatherman1 data
      = enrichedRecords parseFloat2 locator2 weatherman2 data := by
    unfold enrichedRecords
    apply List.filterMap_congr
    intro row hrow
    rw [hrows row hrow]
  have he : rowErrors parseFloat1 locator1 weatherman1 data
      = rowErrors parseFloat2 locator2 weatherman2 data := by
    unfold rowErrors
    apply List.filterMap_congr
    intro row hrow
    rw [hrows row hrow]
  rw [Process_eq, Process_eq, hp, hr, he]

/-- C17: a successfully enriched record has the timestamp parsed from its row,
the condition text that the weather resolver returned, and the city and the
country that the place resolver returned; and two place resolvers whose
answers differ in the fields `Date` and `Weather` only give the same outcome of
`Process` on every input. -/
theorem Process_ignores_resolver_date {F : Type} (parseFloat : String → Except GoError F)
    (locator1 locator2 : Locator F) (weatherman : Weatherman F)
    (hsame : ∀ latitude longitude,
      placeOf (locator1 latitude longitude) = placeOf (locator2 latitude longitude)) :
    (∀ data, Process parseFloat locator1 weatherman data
      = Process parseFloat locator2 weatherman data)
    ∧ (∀ row record, enrich parseFloat locator1 weatherman row = .ok record →
        ∃ metadata place forecast,
          mapDataRowToStruct parseFloat row = .ok metadata
          ∧ locator1 metadata.latitude metadata.longitude = .ok place
          ∧ weatherman metadata.latitude metadata.longitude metadata.date = .ok forecast
          ∧ record.Date = metadata.date ∧ record.Weather = forecast.Conditions
          ∧ record.City = place.City ∧ record.Country = place.Country) := by
  refine ⟨?_, ?_⟩
  · intro data
    exact Process_congr_enrich parseFloat parseFloat locator1 locator2 weatherman weatherman data
      (fun row _ => enrich_congr_placeOf parseFloat locator1 locator2 weatherman hsame row)
  · intro row record hrec
    unfold enrich at hrec
    cases hm : mapDataRowToStruct parseFloat row with
    | panic => rw [hm] at hrec; cases hrec
    | error err => rw [hm] at hrec; cases hrec
    | ok metadata =>
      rw [hm] at hrec
      simp only at hrec
      cases hl : locator1 metadata.latitude metadata.longitude with
      | error err => rw [hl] at hrec; cases hrec
      | ok place =>
        rw [hl] at hrec
        simp only at hrec
        cases hw : weatherman metadata.latitude metadata.longitude metadata.date with
        | error err => rw [hw] at hrec; cases hrec
        | ok forecast =>
          rw [hw] at hrec
          simp only [Outcome.ok.injEq] at hrec
          subst hrec
          exact ⟨metadata, place, forecast, rfl, hl, hw, rfl, rfl, rfl, rfl⟩

/-- The test `foggy weekend` with a place resolver that fills `Date` and `Weather`
with other values: the same title, and the first record has the timestamp of
its row and the condition text "Rain". -/
theorem Process_ignores_resolver_date_witness :
    Process decimalLiteral datedLocator foggyWeekendWeatherman foggyWeekendRows
      = some ("A foggy weekend in New York", [])
    ∧ Process decimalLiteral newYorkLocator foggyWeekendWeatherman foggyWeekendRows
      = Process decimalLiteral datedLocator foggyWeekendWeatherman foggyWeekendRows
    ∧ (enrich decimalLiteral datedLocator foggyWeekendWeatherman
        ["2020-03-30T14:12:19Z", "40.728808", "-73.996106"]).record?
      = some { City := "New York", Country := "USA",
               Date := Date 2020 3 30 14 12 19 0, Weather := "Rain" } :=
  ⟨by rfl,
   (Process_ignores_resolver_date decimalLiteral newYorkLocator datedLocator
      foggyWeekendWeatherman (fun _ _ => rfl)).1 foggyWeekendRows,
   by rfl⟩

/-! ## The period and the two extremes: claim C18 -/

/-- A non-empty album has an earliest and a latest timestamp. -/
theorem exists_extremes (album : List Location) (hne : album ≠ []) :
    ∃ mn mx, IsEarliest mn album ∧ IsLatest mx album := by
  obtain ⟨first, rest, rfl⟩ := List.exists_cons_of_ne_nil hne
  obtain ⟨⟨_, h2, h3⟩, ⟨_, h5, h6⟩⟩ := albumPeriod_fold (first :: rest) first.Date first.Date
  refine ⟨_, _, ⟨?_, h2⟩, ⟨?_, h5⟩⟩
  · rcases h3 with h3 | h3
    · exact ⟨first, List.mem_cons_self _ _, h3.symm⟩
    · exact h3
  · rcases h6 with h6 | h6
    · exact ⟨first, List.mem_cons_self _ _, h6.symm⟩
    · exact h6

/-- C18: two albums with the same earliest and the same latest timestamp have
the same period; in particular a permutation of an album has the period of
the album. -/
theorem albumPeriod_extremes_only (album other : List Location) :
    (∀ mn mx, IsEarliest mn album → IsLatest mx album → IsEarliest mn other →
      IsLatest mx other → albumPeriod album = albumPeriod other)
    ∧ (album.Perm other → albumPeriod album = albumPeriod other) := by
  have hfirst : ∀ mn mx, IsEarliest mn album → IsLatest mx album → IsEarliest mn other →
      IsLatest mx other → albumPeriod album = albumPeriod other := by
    intro mn mx h1 h2 h3 h4
    rw [albumPeriod_eq_periodOf album mn mx h1 h2, albumPeriod_eq_periodOf other mn mx h3 h4]
  refine ⟨hfirst, ?_⟩
  intro hperm
  by_cases hne : album = []
  · subst hne
    rw [List.nil_perm.mp hperm]
  · obtain ⟨mn, mx, hmn, hmx⟩ := exists_extremes album hne
    refine hfirst mn mx hmn hmx ?_ ?_
    · obtain ⟨⟨p, hp, hd⟩, hle⟩ := hmn
      exact ⟨⟨p, hperm.mem_iff.mp hp, hd⟩, fun q hq => hle q (hperm.mem_iff.mpr hq)⟩
    · obtain ⟨⟨p, hp, hd⟩, hle⟩ := hmx
      exact ⟨⟨p, hperm.mem_iff.mp hp, hd⟩, fun q hq => hle q (hperm.mem_iff.mpr hq)⟩

/-- The three timestamps of the test `foggy weekend`, in two orders, and
without the middle one: the same period. -/
theorem albumPeriod_extremes_only_witness :
    albumPeriod [takenAt (Date 2020 3 30 14 12 19 0), takenAt (Date 2020 3 29 14 20 10 0),
        takenAt (Date 2020 3 28 14 32 2 0)]
      = albumPeriod [takenAt (Date 2020 3 28 14 32 2 0), takenAt (Date 2020 3 30 14 12 19 0)]
    ∧ albumPeriod [takenAt (Date 2020 3 30 14 12 19 0), takenAt (Date 2020 3 29 14 20 10 0),
        takenAt (Date 2020 3 28 14 32 2 0)]
      = albumPeriod [takenAt (Date 2020 3 29 14 20 10 0), takenAt (Date 2020 3 30 14 12 19 0),
        takenAt (Date 2020 3 28 14 32 2 0)] :=
  ⟨(albumPeriod_extremes_only _ _).1 (Date 2020 3 28 14 32 2 0) (Date 2020 3 30 14 12 19 0)
      ⟨⟨_, List.mem_cons_of_mem _ (List.mem_cons_of_mem _ (List.mem_cons_self _ _)), rfl⟩,
        by decide⟩
      ⟨⟨_, List.mem_cons_self _ _, rfl⟩, by decide⟩
      ⟨⟨_, List.mem_cons_self _ _, rfl⟩, by decide⟩
      ⟨⟨_, List.mem_cons_of_mem _ (List.mem_cons_self _ _), rfl⟩, by decide⟩,
   (albumPeriod_extremes_only _ _).2 (List.Perm.swap _ _ _)⟩

/-! ## Two runs on the same input: claim C19 -/

theorem mapGet_absent (m : GoMap) (key : String)
    (h : m.any (fun entry => entry.1 == key) = false) : mapGet m key = 0 := by
  induction m with
  | nil => rfl
  | cons entry rest ih =>
    obtain ⟨k, v⟩ := entry
    rw [List.any_cons, Bool.or_eq_false_iff] at h
    have hk : ¬ k = key := by simpa using h.1
    unfold mapGet
    rw [if_neg hk]
    exact ih h.2

/-- A new key, put anywhere among the entries, is read with the value 1, and
the other keys keep their values. -/
theorem mapGet_insert (m : GoMap) (i : Nat) (key k : String)
    (h : m.any (fun entry => entry.1 == key) = false) :
    mapGet (m.take i ++ (key, 1) :: m.drop i) k = if k = key then 1 else mapGet m k := by
  induction m generalizing i with
  | nil =>
    simp only [List.take_nil, List.drop_nil, List.nil_append]
    unfold mapGet
    by_cases hk : key = k
    · rw [if_pos hk, if_pos hk.symm]
    · rw [if_neg hk, if_neg (fun e => hk e.symm)]
      rfl
  | cons entry rest ih =>
    obtain ⟨a, v⟩ := entry
    rw [List.any_cons, Bool.or_eq_false_iff] at h
    have ha : ¬ a = key := by simpa using h.1
    cases i with
    | zero =>
      simp only [List.take_zero, List.drop_zero, List.nil_append]
      by_cases hk : key = k
      · rw [if_pos hk.symm]
        unfold mapGet
        rw [if_pos hk]
      · rw [if_neg (fun e => hk e.symm)]
        conv_lhs => unfold mapGet
        rw [if_neg hk]
    | succ j =>
      simp only [List.take_succ_cons, List.drop_succ_cons, List.cons_append]
      by_cases hak : a = k
      · have hne : ¬ k = key := fun e => ha (hak.trans e)
        rw [if_neg hne]
        unfold mapGet
        rw [if_pos hak, if_pos hak]
      · conv_lhs => unfold mapGet
        conv_rhs => unfold mapGet
        rw [if_neg hak, if_neg hak]
        exact ih j h.2

/-- Raising the value of a key of the map in place raises what is read for the
key, and the other keys keep their values. -/
theorem mapGet_bump (m : GoMap) (key k : String) :
    mapGet (m.map fun entry => if entry.1 = key then (entry.1, entry.2 + 1) else entry) k
      = if k = key ∧ m.any (fun entry => entry.1 == key) = true then mapGet m k + 1
        else mapGet m k := by
  induction m with
  | nil => simp [mapGet]
  | cons entry rest ih =>
    obtain ⟨a, v⟩ := entry
    rw [List.map_cons]
    by_cases ha : a = key
    · simp only [ha, if_true, List.any_cons, beq_self_eq_true, Bool.true_or, and_true]
      by_cases hk : key = k
      · unfold mapGet
        rw [if_pos hk, if_pos hk.symm, if_pos hk]
      · unfold mapGet
        rw [if_neg hk, if_neg (fun e => hk e.symm), if_neg hk]
        rw [ih, if_neg (fun h => hk h.1.symm)]
    · have hb : (a == key) = false := by simpa using ha
      simp only [ha, if_false, List.any_cons, hb, Bool.false_or]
      by_cases hak : a = k
      · have hne : ¬ k = key := fun e => ha (hak.trans e)
        unfold mapGet
        rw [if_pos hak, if_pos hak, if_neg (fun h => hne h.1)]
      · conv_lhs => unfold mapGet
        conv_rhs => unfold mapGet
        rw [if_neg hak, if_neg hak]
        exact ih

/-- Whatever the layout, `m[key]++` raises what is read for the key by one and
leaves what is read for the other keys. -/
theorem mapGet_mapIncr (layout : Layout) (m : GoMap) (key k : String) :
    mapGet (mapIncr layout m key) k = if k = key then mapGet m k + 1 else mapGet m k := by
  unfold mapIncr
  by_cases hp : m.any (fun entry => entry.1 == key) = true
  · rw [if_pos hp, mapGet_bump]
    by_cases hk : k = key
    · rw [if_pos ⟨hk, hp⟩, if_pos hk]
    · rw [if_neg (fun h => hk h.1), if_neg hk]
  · rw [if_neg hp]
    have habs := Bool.eq_false_iff.mpr hp
    rw [mapGet_insert m _ key k habs]
    by_cases hk : k = key
    · rw [if_pos hk, if_pos hk, hk, mapGet_absent m key habs]
    · rw [if_neg hk, if_neg hk]

theorem mapGet_mapIncr_eq_incr (layout : Layout) (m : GoMap) (f : String → Nat) (key : String)
    (hm : ∀ k, mapGet m k = f k) (k : String) :
    mapGet (mapIncr layout m key) k = incr f key k := by
  rw [mapGet_mapIncr]
  unfold incr
  rw [hm k]

/-- In a run, whatever its layout, the loop of `albumCity` goes through the
states of the loop of the map-as-function model. -/
theorem albumCityRun_foldl (layout : Layout) (album : List Location) (run : CityRun)
    (st : CityState) (hm : ∀ k, mapGet run.m k = st.m k) (hc : run.count = st.count)
    (hcity : run.city = st.city) :
    (album.foldl (albumCityRunStep layout) run).city = (album.foldl albumCityStep st).city := by
  induction album generalizing run st with
  | nil => exact hcity
  | cons photo rest ih =>
    rw [List.foldl_cons, List.foldl_cons]
    have hg := mapGet_mapIncr_eq_incr layout run.m st.m photo.City hm
    apply ih
    · intro k
      unfold albumCityRunStep albumCityStep
      simp only [hg, hc]
      split <;> exact hg k
    · unfold albumCityRunStep albumCityStep
      simp only [hg, hc]
      split <;> rfl
    · unfold albumCityRunStep albumCityStep
      simp only [hg, hc]
      split
      · rfl
      · exact hcity

theorem albumCityRun_eq (layout : Layout) (album : List Location) :
    albumCityRun layout album = albumCity album :=
  albumCityRun_foldl layout album _ _ (fun _ => rfl) rfl rfl

theorem tallyRun_tally (layout : Layout) (run : MoodRun) (st : MoodState) (key source : String)
    (hm : ∀ k, mapGet run.m k = st.m k) (hc : run.count = st.count)
    (hw : run.weather = st.weather) :
    (∀ k, mapGet (tallyRun layout run key source).m k = (tally st key source).m k)
    ∧ (tallyRun layout run key source).count = (tally st key source).count
    ∧ (tallyRun layout run key source).weather = (tally st key source).weather := by
  have hg := mapGet_mapIncr_eq_incr layout run.m st.m key hm
  unfold tallyRun tally
  simp only [hg, hc]
  split
  · exact ⟨hg, rfl, rfl⟩
  · exact ⟨hg, rfl, hw⟩

/-- In a run, whatever its layout, the loop of `weatherConditions` goes through
the states of the loop of the map-as-function model. -/
theorem weatherRun_foldl (layout : Layout) (album : List Location) (run : MoodRun)
    (st : MoodState) (hm : ∀ k, mapGet run.m k = st.m k) (hc : run.count = st.count)
    (hw : run.weather = st.weather) :
    (album.foldl (weatherRunStep layout) run).weather
      = (album.foldl weatherStep st).weather := by
  induction album generalizing run st with
  | nil => exact hw
  | cons photo rest ih =>
    rw [List.foldl_cons, List.foldl_cons]
    have hstep : (∀ k, mapGet (weatherRunStep layout run photo).m k = (weatherStep st photo).m k)
        ∧ (weatherRunStep layout run photo).count = (weatherStep st photo).count
        ∧ (weatherRunStep layout run photo).weather = (weatherStep st photo).weather := by
      unfold weatherRunStep weatherStep
      split
      · exact tallyRun_tally layout run st _ _ hm hc hw
      · split
        · exact tallyRun_tally layout run st _ _ hm hc hw
        · split
          · exact tallyRun_tally layout run st _ _ hm hc hw
          · split
            · exact tallyRun_tally layout run st _ _ hm hc hw
            · split
              · exact tallyRun_tally layout run st _ _ hm hc hw
              · exact tallyRun_tally layout run st _ _ hm hc hw
    exact ih _ _ hstep.1 hstep.2.1 hstep.2.2

theorem weatherConditionsRun_eq (layout : Layout) (album : List Location) :
    weatherConditionsRun layout album = weatherConditions album :=
  weatherRun_foldl layout album _ _ (fun _ => rfl) rfl rfl

/-- C19: two runs of `Process` on the same input with the same resolvers return
the same outcome (the same title and the same error list, or a panic in both)
whatever the two runtimes do with what the language leaves open, the place of
the keys in the two tally maps: the code reads and writes the maps by key and
never ranges over them. Every run returns what the map-as-function model
`Process` returns. -/
theorem Process_deterministic {F : Type} (layout1 layout2 : Layout)
    (parseFloat : String → Except GoError F) (locator : Locator F) (weatherman : Weatherman F)
    (data : List (List String)) :
    ProcessRun layout1 parseFloat locator weatherman data
      = ProcessRun layout2 parseFloat locator weatherman data
    ∧ ProcessRun layout1 parseFloat locator weatherman data
      = Process parseFloat locator weatherman data := by
  have hrun : ∀ layout : Layout, ProcessRun layout parseFloat locator weatherman data
      = Process parseFloat locator weatherman data := by
    intro layout
    unfold ProcessRun Process
    cases data.foldlM (processRow parseFloat locator weatherman)
        { errs := [], albumMetadata := [] } with
    | none => rfl
    | some acc =>
      simp only [weatherConditionsRun_eq, albumCityRun_eq]
  exact ⟨(hrun layout1).trans (hrun layout2).symm, hrun layout1⟩

/-- The test `foggy weekend` in two runs, one that puts new keys first in a map
and one that puts them last: the mood maps end in different orders, and both
runs return "A foggy weekend in New York" and no error. -/
theorem Process_deterministic_witness :
    (weatherRunLoop frontLayout
        [withWeather "Rain", withWeather "Overcast", withWeather "Fog"]).m
      = [("foggy", 2), ("rainy", 1)]
    ∧ (weatherRunLoop backLayout
        [withWeather "Rain", withWeather "Overcast", withWeather "Fog"]).m
      = [("rainy", 1), ("foggy", 2)]
    ∧ ProcessRun frontLayout decimalLiteral newYorkLocator foggyWeekendWeatherman foggyWeekendRows
      = some ("A foggy weekend in New York", [])
    ∧ ProcessRun frontLayout decimalLiteral newYorkLocator foggyWeekendWeatherman foggyWeekendRows
      = ProcessRun backLayout decimalLiteral newYorkLocator foggyWeekendWeatherman
          foggyWeekendRows :=
  ⟨by rfl, by rfl, by rfl,
   (Process_deterministic frontLayout backLayout decimalLiteral newYorkLocator
      foggyWeekendWeatherman foggyWeekendRows).1⟩

/-! ## Letter case of the condition texts: claim C20 -/

theorem unicodeToLower_ofNat_upper (n : Nat) (h1 : 65 ≤ n) (h2 : n ≤ 90) :
    unicodeToLower (Char.ofNat (n + 32)) = unicodeToLower (Char.ofNat n) := by
  interval_cases n <;> decide

theorem unicodeToLower_ofNat_lower (n : Nat) (h1 : 97 ≤ n) (h2 : n ≤ 122) :
    unicodeToLower (Char.ofNat (n - 32)) = unicodeToLower (Char.ofNat n) := by
  interval_cases n <;> decide

theorem sameLetter_toLower (c d : Char) (h : sameLetter c d) :
    unicodeToLower d = unicodeToLower c := by
  rcases h with rfl | rfl | rfl
  · rfl
  · by_cases h : c.toNat ≥ 65 ∧ c.toNat ≤ 90
    · have hl : c.toLower = Char.ofNat (c.toNat + 32) := by
        simp only [Char.toLower, h, and_self, if_true]
      have hn := unicodeToLower_ofNat_upper c.toNat h.1 h.2
      rw [Char.ofNat_toNat] at hn
      rw [hl, hn]
    · have hl : c.toLower = c := by
        simp only [Char.toLower, h, if_false]
      rw [hl]
  · by_cases h : c.toNat ≥ 97 ∧ c.toNat ≤ 122
    · have hu : c.toUpper = Char.ofNat (c.toNat - 32) := by
        simp only [Char.toUpper, h, and_self, if_true]
      have hn := unicodeToLower_ofNat_lower c.toNat h.1 h.2
      rw [Char.ofNat_toNat] at hn
      rw [hu, hn]
    · have hu : c.toUpper = c := by
        simp only [Char.toUpper, h, if_false]
      rw [hu]

theorem map_toLower_sameLetter (xs ys : List Char) (h : List.Forall₂ sameLetter xs ys) :
    ys.map unicodeToLower = xs.map unicodeToLower := by
  induction h with
  | nil => rfl
  | cons hcd _ ih => rw [List.map_cons, List.map_cons, sameLetter_toLower _ _ hcd, ih]

theorem ToLower_caseVariant (s t : String) (h : CaseVariant s t) : ToLower t = ToLower s := by
  unfold ToLower
  rw [map_toLower_sameLetter s.data t.data h]

/-- The loop body of `weatherConditions` reads the lower-cased condition text only. -/
theorem weatherStep_congr (st : MoodState) (photo changed : Location)
    (h : ToLower changed.Weather = ToLower photo.Weather) :
    weatherStep st changed = weatherStep st photo := by
  unfold weatherStep
  rw [h]

/-- C20: changing the case of ASCII letters in the condition texts of the
records does not change the result of `weatherConditions`. -/
theorem weatherConditions_case_insensitive (album other : List Location)
    (hcase : AlbumCaseVariant album other) :
    weatherConditions other = weatherConditions album := by
  unfold weatherConditions weatherLoop
  generalize ({ m := fun _ => 0, count := 0, weather := "" } : MoodState) = st
  unfold AlbumCaseVariant at hcase
  induction hcase generalizing st with
  | nil => rfl
  | cons hpq _ ih =>
    rw [List.foldl_cons, List.foldl_cons, weatherStep_congr st _ _ (ToLower_caseVariant _ _ hpq)]
    exact ih _

/-- The texts "RAIN", "Rain" and "rain" are all counted as rainy. -/
theorem weatherConditions_case_insensitive_witness :
    weatherConditions [withWeather "RAIN", withWeather "Fog", withWeather "rain"]
      = weatherConditions [withWeather "Rain", withWeather "Fog", withWeather "Rain"]
    ∧ weatherConditions [withWeather "Rain", withWeather "Fog", withWeather "Rain"] = "rainy"
    ∧ bucketTally "rainy" [withWeather "RAIN", withWeather "Rain", withWeather "rain"] = 3 :=
  ⟨weatherConditions_case_insensitive
      [withWeather "Rain", withWeather "Fog", withWeather "Rain"]
      [withWeather "RAIN", withWeather "Fog", withWeather "rain"]
      (List.Forall₂.cons
        (List.Forall₂.cons (Or.inl rfl) (List.Forall₂.cons (Or.inr (Or.inr rfl))
          (List.Forall₂.cons (Or.inr (Or.inr rfl)) (List.Forall₂.cons (Or.inr (Or.inr rfl))
            List.Forall₂.nil))))
        (List.Forall₂.cons
          (List.Forall₂.cons (Or.inl rfl) (List.Forall₂.cons (Or.inl rfl)
            (List.Forall₂.cons (Or.inl rfl) List.Forall₂.nil)))
          (List.Forall₂.cons
            (List.Forall₂.cons (Or.inr (Or.inl rfl)) (List.Forall₂.cons (Or.inl rfl)
              (List.Forall₂.cons (Or.inl rfl) (List.Forall₂.cons (Or.inl rfl)
                List.Forall₂.nil))))
            List.Forall₂.nil))),
   by rfl, by rfl⟩

/-! ## The label that the mood classifier returns: claim C21 -/

/-- After a record the leader is the bucket of the record or the leader before. -/
theorem weatherStep_weather (st : MoodState) (photo : Location) :
    (weatherStep st photo).weather = moodBucket photo.Weather
    ∨ (weatherStep st photo).weather = st.weather := by
  rw [weatherStep_eq_tally]
  unfold tally
  simp only
  split
  · exact Or.inl rfl
  · exact Or.inr rfl

/-- After the records `xs` the leader is the leader before, or the bucket of
one of the records. -/
theorem foldl_weatherStep_weather (xs : List Location) (st : MoodState) :
    (xs.foldl weatherStep st).weather = st.weather
    ∨ ∃ photo ∈ xs, moodBucket photo.Weather = (xs.foldl weatherStep st).weather := by
  induction xs generalizing st with
  | nil => exact Or.inl rfl
  | cons photo rest ih =>
    rw [List.foldl_cons]
    rcases ih (weatherStep st photo) with h | ⟨q, hq, hb⟩
    · rcases weatherStep_weather st photo with h2 | h2
      · exact Or.inr ⟨photo, List.mem_cons_self _ _, (h.trans h2).symm⟩
      · exact Or.inl (h.trans h2)
    · exact Or.inr ⟨q, List.mem_cons_of_mem _ hq, hb⟩

/-- C21: on a non-empty album `weatherConditions` returns one of the six labels
"rainy", "snowy", "stormy", "chilly", "foggy", "sunny", and the label is the
bucket of a record of the album; on the empty album `weatherConditions`,
`albumPeriod` and `albumCity` return the empty string. -/
theorem weatherConditions_label (album : List Location) :
    (album ≠ [] →
      weatherConditions album ∈ ["rainy", "snowy", "stormy", "chilly", "foggy", "sunny"]
      ∧ ∃ photo ∈ album, moodBucket photo.Weather = weatherConditions album)
    ∧ weatherConditions [] = "" ∧ albumPeriod [] = "" ∧ albumCity [] = "" := by
  refine ⟨?_, rfl, rfl, rfl⟩
  intro hne
  obtain ⟨first, rest, rfl⟩ := List.exists_cons_of_ne_nil hne
  have hfirst : (weatherStep { m := fun _ => 0, count := 0, weather := "" } first).weather
      = moodBucket first.Weather := by
    rw [weatherStep_eq_tally, tally_init_weather]
  have hmem : ∃ photo ∈ first :: rest,
      moodBucket photo.Weather = weatherConditions (first :: rest) := by
    unfold weatherConditions weatherLoop
    rw [List.foldl_cons]
    rcases foldl_weatherStep_weather rest
      (weatherStep { m := fun _ => 0, count := 0, weather := "" } first) with h | ⟨q, hq, hb⟩
    · exact ⟨first, List.mem_cons_self _ _, (h.trans hfirst).symm⟩
    · exact ⟨q, List.mem_cons_of_mem _ hq, hb⟩
  refine ⟨?_, hmem⟩
  obtain ⟨photo, _, hb⟩ := hmem
  rw [← hb]
  exact moodBucket_mem photo.Weather

/-- The conditions of the test `sunny week`: the label is "sunny", the bucket
of the first record. -/
theorem weatherConditions_label_witness :
    weatherConditions [withWeather "Clear", withWeather "Rain", withWeather "Clear",
        withWeather "Overcast", withWeather "Clear"] = "sunny"
    ∧ (∃ photo ∈ [withWeather "Clear", withWeather "Rain", withWeather "Clear",
          withWeather "Overcast", withWeather "Clear"],
        moodBucket photo.Weather
          = weatherConditions [withWeather "Clear", withWeather "Rain", withWeather "Clear",
              withWeather "Overcast", withWeather "Clear"])
    ∧ weatherConditions [withWeather "İCE"] = "chilly"
    ∧ ∃ photo ∈ [withWeather "İCE"],
        moodBucket photo.Weather = weatherConditions [withWeather "İCE"] :=
  ⟨by rfl,
   ((weatherConditions_label [withWeather "Clear", withWeather "Rain", withWeather "Clear",
      withWeather "Overcast", withWeather "Clear"]).1 (by decide)).2,
   by rfl,
   ((weatherConditions_label [withWeather "İCE"]).1 (by decide)).2⟩

/-! ## The weekend and the instants between the extremes: claim C24 -/

/-- A weekday is a Friday, a Saturday or a Sunday when the day number since
1970-01-01 (a Thursday) is 1, 2 or 3 modulo 7. -/
theorem isWeekendDay_iff (t : Int) :
    isWeekendDay (Time.Weekday t) = true
      ↔ (t / 86400000000000) % 7 = 1 ∨ (t / 86400000000000) % 7 = 2
        ∨ (t / 86400000000000) % 7 = 3 := by
  unfold isWeekendDay Time.Weekday Second
  simp only [Bool.or_eq_true, beq_iff_eq]
  omega

/-- Friday, Saturday and Sunday make 72 hours in a row: an interval of at most
72 hours that holds an instant of a weekend starts or ends in the weekend. -/
theorem weekend_endpoint (mn mx t : Int) (hspan : mx - mn ≤ 72 * Hour) (h1 : mn ≤ t)
    (h2 : t ≤ mx) (hw : isWeekendDay (Time.Weekday t) = true) :
    isWeekendDay (Time.Weekday mn) = true ∨ isWeekendDay (Time.Weekday mx) = true := by
  rw [isWeekendDay_iff] at hw ⊢
  rw [isWeekendDay_iff]
  have hH : Hour = 3600000000000 := by decide
  omega

/-- C24: when the album spans more than 24 and at most 72 hours, `albumPeriod`
returns "weekend" exactly when some instant between the earliest and the latest
timestamp (both included) falls on a Friday, a Saturday or a Sunday in UTC. -/
theorem albumPeriod_weekend_iff_interval (album : List Location) (mn mx : Int)
    (hmn : IsEarliest mn album) (hmx : IsLatest mx album)
    (hband : 24 * Hour < mx - mn ∧ mx - mn ≤ 72 * Hour) :
    albumPeriod album = "weekend"
      ↔ ∃ t, mn ≤ t ∧ t ≤ mx ∧ isWeekendDay (Time.Weekday t) = true := by
  have hH : Hour = 3600000000000 := by decide
  have h3 : ¬ (mx - mn > 72 * Hour) := by omega
  rw [albumPeriod_eq_periodOf album mn mx hmn hmx, periodOf_middle mn mx hband.1 h3]
  constructor
  · intro hperiod
    by_cases hc : (isWeekendDay (Time.Weekday mx) || isWeekendDay (Time.Weekday mn)) = true
    · rw [Bool.or_eq_true] at hc
      rcases hc with hc | hc
      · exact ⟨mx, by omega, Int.le_refl _, hc⟩
      · exact ⟨mn, Int.le_refl _, by omega, hc⟩
    · rw [if_neg hc] at hperiod
      exact absurd hperiod (by decide)
  · rintro ⟨t, h1, h2, hw⟩
    have hc : (isWeekendDay (Time.Weekday mx) || isWeekendDay (Time.Weekday mn)) = true := by
      rw [Bool.or_eq_true]
      exact (weekend_endpoint mn mx t hband.2 h1 h2 hw).symm
    rw [if_pos hc]

/-- From Tuesday 2020-02-11 to Thursday 2020-02-13 no instant is in a weekend
and the period is "few days"; from Saturday 2020-03-28 to Monday 2020-03-30 the
earliest instant is in the weekend and the period is "weekend". -/
theorem albumPeriod_weekend_iff_interval_witness :
    (¬ ∃ t, Date 2020 2 11 14 12 19 0 ≤ t ∧ t ≤ Date 2020 2 13 14 32 2 0
        ∧ isWeekendDay (Time.Weekday t) = true)
    ∧ albumPeriod [takenAt (Date 2020 3 30 14 12 19 0), takenAt (Date 2020 3 28 14 32 2 0)]
        = "weekend" :=
  ⟨fun h => absurd
      ((albumPeriod_weekend_iff_interval
        [takenAt (Date 2020 2 11 14 12 19 0), takenAt (Date 2020 2 13 14 32 2 0)]
        (Date 2020 2 11 14 12 19 0) (Date 2020 2 13 14 32 2 0)
        ⟨⟨_, List.mem_cons_self _ _, rfl⟩, by decide⟩
        ⟨⟨_, List.mem_cons_of_mem _ (List.mem_cons_self _ _), rfl⟩, by decide⟩
        (by decide)).mpr h)
      (by decide),
   (albumPeriod_weekend_iff_interval
      [takenAt (Date 2020 3 30 14 12 19 0), takenAt (Date 2020 3 28 14 32 2 0)]
      (Date 2020 3 28 14 32 2 0) (Date 2020 3 30 14 12 19 0)
      ⟨⟨_, List.mem_cons_of_mem _ (List.mem_cons_self _ _), rfl⟩, by decide⟩
      ⟨⟨_, List.mem_cons_self _ _, rfl⟩, by decide⟩
      (by decide)).mpr ⟨Date 2020 3 28 14 32 2 0, by decide, by decide, by decide⟩⟩

/-! ## The calls that a row does not reach: claim C23 -/

/-- C23: the outcome of `Process` depends on the place resolver only through
its answers at the coordinates of the rows that parse, and on the weather
resolver only through its answers for the rows that parse and whose place
lookup succeeds: two pairs of resolvers that agree there give the same
outcome, whatever they answer elsewhere. A row that fails parsing reaches
neither resolver, a row whose place lookup fails does not reach the weather
resolver. -/
theorem Process_unreached_answers {F : Type} (parseFloat : String → Except GoError F)
    (locator1 locator2 : Locator F) (weatherman1 weatherman2 : Weatherman F)
    (data : List (List String))
    (hloc : ∀ row ∈ data, ∀ metadata, mapDataRowToStruct parseFloat row = .ok metadata →
      locator1 metadata.latitude metadata.longitude
        = locator2 metadata.latitude metadata.longitude)
    (hwm : ∀ row ∈ data, ∀ metadata place, mapDataRowToStruct parseFloat row = .ok metadata →
      locator1 metadata.latitude metadata.longitude = .ok place →
      weatherman1 metadata.latitude metadata.longitude metadata.date
        = weatherman2 metadata.latitude metadata.longitude metadata.date) :
    Process parseFloat locator1 weatherman1 data = Process parseFloat locator2 weatherman2 data := by
  apply Process_congr_enrich
  intro row hrow
  unfold enrich
  cases hm : mapDataRowToStruct parseFloat row with
  | panic => rfl
  | error err => rfl
  | ok metadata =>
    simp only
    rw [← hloc row hrow metadata hm]
    cases hl : locator1 metadata.latitude metadata.longitude with
    | error err => rfl
    | ok place =>
      simp only
      rw [hwm row hrow metadata place hm hl]

/-- The test `invalid data`: the first row does not parse, so a place resolver
that fails at its coordinates, and a weather resolver that fails for every
date but that of the second row, give the outcome of the test. -/
theorem Process_unreached_answers_witness :
    Process decimalLiteral firstRowFailingLocator rainyOnceWeatherman invalidDataRows
      = some ("A rainy day in New York",
          [.wrapError "invalid photo: "
            (.wrapError "invalid date: " (.parseError layout "2020-03-30 14:12:19Z"))])
    ∧ Process decimalLiteral newYorkLocator rainyWeatherman invalidDataRows
      = Process decimalLiteral firstRowFailingLocator rainyOnceWeatherman invalidDataRows
    ∧ firstRowFailingLocator "40.728808" "-73.996106" = .error (.errorString "argh")
    ∧ rainyOnceWeatherman "40.728808" "-73.996106" 0 = .error (.errorString "argh") :=
  ⟨by rfl,
   Process_unreached_answers decimalLiteral newYorkLocator firstRowFailingLocator
      rainyWeatherman rainyOnceWeatherman invalidDataRows
      (by
        intro row hrow metadata hm
        simp only [invalidDataRows, List.mem_cons, List.mem_singleton, List.not_mem_nil,
          or_false] at hrow
        rcases hrow with rfl | rfl
        · have hfail : mapDataRowToStruct decimalLiteral
              ["2020-03-30 14:12:19Z", "40.728808", "-73.996106"]
              = .error (.wrapError "invalid date: "
                  (.parseError layout "2020-03-30 14:12:19Z")) := rfl
          rw [hfail] at hm
          cases hm
        · have hok : mapDataRowToStruct decimalLiteral
              ["2020-03-29T14:20:10Z", "40.728656", "-73.998790"]
              = .ok { latitude := "40.728656", longitude := "-73.998790",
                      date := Date 2020 3 29 14 20 10 0 } := rfl
          rw [hok] at hm
          cases hm
          rfl)
      (by
        intro row hrow metadata place hm _
        simp only [invalidDataRows, List.mem_cons, List.mem_singleton, List.not_mem_nil,
          or_false] at hrow
        rcases hrow with rfl | rfl
        · have hfail : mapDataRowToStruct decimalLiteral
              ["2020-03-30 14:12:19Z", "40.728808", "-73.996106"]
              = .error (.wrapError "invalid date: "
                  (.parseError layout "2020-03-30 14:12:19Z")) := rfl
          rw [hfail] at hm
          cases hm
        · have hok : mapDataRowToStruct decimalLiteral
              ["2020-03-29T14:20:10Z", "40.728656", "-73.998790"]
              = .ok { latitude := "40.728656", longitude := "-73.998790",
                      date := Date 2020 3 29 14 20 10 0 } := rfl
          rw [hok] at hm
          cases hm
          rfl),
   by rfl, by rfl⟩

/-! ## The mood classifier without the chilly bucket: claim C22 -/

theorem bucketTally_eq_cityCount (bucket : String) (album : List Location) :
    bucketTally bucket album = cityCount bucket (album.map asCity) := by
  unfold bucketTally cityCount
  rw [List.map_map]
  rfl

/-- What the invariant of the place vote gives on a non-empty album: no name
has more records than the returned one, which reached its final count at a
point where every other name was below it. -/
theorem albumCityLoop_majority (album : List Location) (hne : album ≠ []) :
    (∀ name, cityCount name album ≤ cityCount (albumCity album) album)
    ∧ ∃ pre post, album = pre ++ post
        ∧ cityCount (albumCity album) pre = cityCount (albumCity album) album
        ∧ ∀ name, name ≠ albumCity album → cityCount name pre < cityCount (albumCity album) album := by
  have inv := albumCityLoop_inv album
  obtain ⟨first, rest, rfl⟩ := List.exists_cons_of_ne_nil hne
  have hpos : 0 < (albumCityLoop (first :: rest)).count := by
    have h1 := inv.bound first.City
    have h2 : 1 ≤ cityCount first.City (first :: rest) := by
      simp [cityCount]
    omega
  rcases inv.lead with h0 | ⟨pre, post, hsplit, hlead, hothers⟩
  · omega
  · have hfinal : cityCount (albumCity (first :: rest)) (first :: rest)
        = (albumCityLoop (first :: rest)).count := by
      have hle := inv.bound (albumCity (first :: rest))
      have happ := cityCount_append (albumCity (first :: rest)) pre post
      rw [← hsplit] at happ
      have hlead2 : cityCount (albumCity (first :: rest)) pre
          = (albumCityLoop (first :: rest)).count := hlead
      omega
    refine ⟨?_, pre, post, hsplit, ?_, ?_⟩
    · intro name
      rw [hfinal]
      exact inv.bound name
    · rw [hfinal]
      exact hlead
    · intro name hn
      rw [hfinal]
      exact hothers name hn

/-- The reference classifier scans as the place vote does on the buckets. -/
theorem referenceScan_eq (rest seen : List Location) (lead : Nat × String)
    (hcount : lead.1 = (albumCityLoop (seen.map asCity)).count)
    (hlabel : lead.2 = (albumCityLoop (seen.map asCity)).city) :
    (referenceScan seen rest lead).1 = (albumCityLoop ((seen ++ rest).map asCity)).count
    ∧ (referenceScan seen rest lead).2 = (albumCityLoop ((seen ++ rest).map asCity)).city := by
  induction rest generalizing seen lead with
  | nil =>
    rw [List.append_nil]
    exact ⟨hcount, hlabel⟩
  | cons photo rest ih =>
    have hassoc : seen ++ photo :: rest = (seen ++ [photo]) ++ rest := by simp
    rw [hassoc]
    unfold referenceScan
    apply ih
    all_goals
      have inv := albumCityLoop_inv (seen.map asCity)
      have hloop : albumCityLoop ((seen ++ [photo]).map asCity)
          = albumCityStep (albumCityLoop (seen.map asCity)) (asCity photo) := by
        rw [List.map_append, List.map_cons, List.map_nil, albumCityLoop_concat]
      have hm : incr (albumCityLoop (seen.map asCity)).m (asCity photo).City (asCity photo).City
          = cityCount (moodBucket photo.Weather) (seen.map asCity) + 1 := by
        simp [incr, inv.tallies, asCity]
      have ht : bucketTally (moodBucket photo.Weather) (seen ++ [photo])
          = cityCount (moodBucket photo.Weather) (seen.map asCity) + 1 := by
        rw [bucketTally_eq_cityCount, List.map_append, cityCount_append]
        have h1 : cityCount (moodBucket photo.Weather) (List.map asCity [photo]) = 1 :=
          cityCount_single_self (asCity photo)
        rw [h1]
      rw [hloop]
      unfold albumCityStep
      simp only [hm, ht, hcount]
      split <;> first | rfl | exact hlabel | exact hcount

/-- Without a chilly record the loop of `weatherConditions` runs as the place
vote does on the buckets. -/
theorem weatherLoop_eq_cityLoop (xs : List Location)
    (hno : ∀ photo ∈ xs, moodBucket photo.Weather ≠ "chilly") (st : MoodState) (ct : CityState)
    (hm : st.m = ct.m) (hc : st.count = ct.count) (hw : st.weather = ct.city) :
    (xs.foldl weatherStep st).weather = ((xs.map asCity).foldl albumCityStep ct).city := by
  induction xs generalizing st ct with
  | nil => exact hw
  | cons photo rest ih =>
    rw [List.map_cons, List.foldl_cons, List.foldl_cons]
    have hb := hno photo (List.mem_cons_self _ _)
    have hsrc : moodSource (moodBucket photo.Weather) = moodBucket photo.Weather := by
      unfold moodSource
      rw [if_neg hb]
    have hcity : (asCity photo).City = moodBucket photo.Weather := rfl
    rw [weatherStep_eq_tally, hsrc]
    apply ih (fun q hq => hno q (List.mem_cons_of_mem _ hq))
    · unfold tally albumCityStep
      simp only [hcity, hm, hc]
      split <;> rfl
    · unfold tally albumCityStep
      simp only [hcity, hm, hc]
      split <;> rfl
    · unfold tally albumCityStep
      simp only [hcity, hm, hc]
      split
      · rfl
      · exact hw

/-- C22: on an album in which no record falls in the "chilly" bucket,
`weatherConditions` returns what the reference classifier with consistent
per-bucket counters returns; on a non-empty such album no bucket has a greater
tally than the returned one, and there is a point of the sequence at which the
returned bucket has reached its final tally while every other bucket is still
below it. -/
theorem weatherConditions_refines_reference (album : List Location)
    (hno : ∀ photo ∈ album, moodBucket photo.Weather ≠ "chilly") :
    weatherConditions album = referenceMood album
    ∧ (album ≠ [] →
        (∀ bucket, bucketTally bucket album ≤ bucketTally (weatherConditions album) album)
        ∧ ∃ pre post, album = pre ++ post
            ∧ bucketTally (weatherConditions album) pre
                = bucketTally (weatherConditions album) album
            ∧ ∀ bucket, bucket ≠ weatherConditions album →
                bucketTally bucket pre < bucketTally (weatherConditions album) album) := by
  have hcode : weatherConditions album = albumCity (album.map asCity) :=
    weatherLoop_eq_cityLoop album hno _ _ rfl rfl rfl
  have href : referenceMood album = albumCity (album.map asCity) :=
    (referenceScan_eq album [] (0, "") rfl rfl).2
  refine ⟨hcode.trans href.symm, ?_⟩
  intro hne
  have hne2 : album.map asCity ≠ [] := by
    intro h
    exact hne (List.map_eq_nil_iff.mp h)
  obtain ⟨hmax, pre, post, hsplit, hlead, hothers⟩ := albumCityLoop_majority _ hne2
  obtain ⟨l1, l2, hl, hpre, _⟩ := List.map_eq_append_iff.mp hsplit
  rw [hcode]
  refine ⟨?_, l1, l2, hl, ?_, ?_⟩
  · intro bucket
    rw [bucketTally_eq_cityCount, bucketTally_eq_cityCount]
    exact hmax bucket
  · rw [bucketTally_eq_cityCount, bucketTally_eq_cityCount, hpre]
    exact hlead
  · intro bucket hb
    rw [bucketTally_eq_cityCount, bucketTally_eq_cityCount, hpre]
    exact hothers bucket hb

/-- The conditions Fog, Rain, Rain, Fog have no chilly record: "foggy" and
"rainy" both end with tally 2, "rainy" reaches 2 first, and both classifiers
return "rainy". On Ice, Rain the reference classifier returns "chilly". The text
"İCE", whose first letter is U+0130, is a chilly record: the album İCE, Rain is
outside the hypothesis, and there the code returns "rainy" and the reference
classifier "chilly". -/
theorem weatherConditions_refines_reference_witness :
    weatherConditions [withWeather "Fog", withWeather "Rain", withWeather "Rain",
        withWeather "Fog"] = referenceMood [withWeather "Fog", withWeather "Rain",
        withWeather "Rain", withWeather "Fog"]
    ∧ referenceMood [withWeather "Fog", withWeather "Rain", withWeather "Rain",
        withWeather "Fog"] = "rainy"
    ∧ referenceMood [withWeather "Ice", withWeather "Rain"] = "chilly"
    ∧ moodBucket "İCE" = "chilly"
    ∧ weatherConditions [withWeather "İCE", withWeather "Rain"] = "rainy"
    ∧ referenceMood [withWeather "İCE", withWeather "Rain"] = "chilly" :=
  ⟨(weatherConditions_refines_reference
      [withWeather "Fog", withWeather "Rain", withWeather "Rain", withWeather "Fog"]
      (by decide)).1,
   by rfl, by rfl, by rfl, by rfl, by rfl⟩

end Nomenclator
